import Mathlib

/-!
Shallow embedding of the NXF decoder (src/nxf/src/lib.rs) from the
pmw2-utils repository.

The decoder works over a seekable byte source.  We model the source as an
immutable list of bytes together with a cursor position; the decoder never
writes to the source, so the byte list is threaded read-only.  A decode step
either succeeds with a value, a new cursor position and three ghost logs
(positions of every byte read, positions at which a material decode started,
positions at which a string decode started), or fails.  Failure is split the
way the Rust code splits it:

  - ioError  models a Result::Err(io::Error) returned to the caller
    (byteorder reads at end of input);
  - panicked models a Rust panic, i.e. process abort
    (the panic on an unknown face-type tag, and the unwrap on
    String::from_utf8);
  - diverge  models fuel exhaustion of the while-offset-nonzero chain loops:
    the loops carry a fuel parameter, and an execution that returns diverge
    for every fuel is a non-terminating execution of the Rust loop.

Floating point fields (f32) are never computed with by the decoder, only
carried; we keep their raw 4-byte big-endian bit pattern as a Nat.
Rust String values are represented by their UTF-8 byte list.
-/

set_option maxRecDepth 200000

inductive Out (α : Type) : Type where
  | ok : α → Nat → List Nat → List Nat → List Nat → Out α
  | ioError : Out α
  | panicked : Out α
  | diverge : Out α
deriving DecidableEq

abbrev NxfM (α : Type) : Type := List Nat → Nat → Out α

def pureM {α : Type} (a : α) : NxfM α := fun _ p => Out.ok a p [] [] []

def bindM {α β : Type} (m : NxfM α) (k : α → NxfM β) : NxfM β := fun d p =>
  match m d p with
  | Out.ok a p' r1 m1 s1 =>
    match k a d p' with
    | Out.ok b p'' r2 m2 s2 => Out.ok b p'' (r1 ++ r2) (m1 ++ m2) (s1 ++ s2)
    | Out.ioError => Out.ioError
    | Out.panicked => Out.panicked
    | Out.diverge => Out.diverge
  | Out.ioError => Out.ioError
  | Out.panicked => Out.panicked
  | Out.diverge => Out.diverge

instance : Monad NxfM where
  pure := pureM
  bind := bindM

/-- Byte of the source at position p (0 when out of range). -/
def byteAt (d : List Nat) (p : Nat) : Nat := d.getD p 0

/-- Big-endian 16-bit value read from positions p, p+1. -/
def get16 (d : List Nat) (p : Nat) : Nat := byteAt d p * 256 + byteAt d (p + 1)

/-- Big-endian 32-bit value read from positions p .. p+3. -/
def get32 (d : List Nat) (p : Nat) : Nat :=
  ((byteAt d p * 256 + byteAt d (p + 1)) * 256 + byteAt d (p + 2)) * 256
    + byteAt d (p + 3)

/-- One byte from the source, None at end of input (Read::bytes().next()). -/
def nextByte : NxfM (Option Nat) := fun d p =>
  if p < d.length then Out.ok (some (byteAt d p)) (p + 1) [p] [] []
  else Out.ok none p [] [] []

def ioErrorM {α : Type} : NxfM α := fun _ _ => Out.ioError

def panicM {α : Type} : NxfM α := fun _ _ => Out.panicked

def divergeM {α : Type} : NxfM α := fun _ _ => Out.diverge

/-- read_u8: one byte, UnexpectedEof error at end of input. -/
def readU8 : NxfM Nat := do
  match ← nextByte with
  | some b => pure b
  | none => ioErrorM

/-- read_u16 big-endian. -/
def readU16 : NxfM Nat := do
  let hi ← readU8
  let lo ← readU8
  pure (hi * 256 + lo)

/-- read_u32 big-endian. -/
def readU32 : NxfM Nat := do
  let b0 ← readU8
  let b1 ← readU8
  let b2 ← readU8
  let b3 ← readU8
  pure (((b0 * 256 + b1) * 256 + b2) * 256 + b3)

/-- read_f32 big-endian; the bit pattern is kept as a Nat. -/
def readF32 : NxfM Nat := readU32

/-- seek(SeekFrom::Current(0)): report the cursor. -/
def tellM : NxfM Nat := fun _ p => Out.ok p p [] [] []

/-- seek(SeekFrom::Start(q)). -/
def seek (q : Nat) : NxfM Unit := fun _ _ => Out.ok () q [] [] []

/-- Ghost action: record that a material decode started at position q. -/
def logMat (q : Nat) : NxfM Unit := fun _ p => Out.ok () p [] [q] []

/-- Ghost action: record that a string decode started at position q. -/
def logStr (q : Nat) : NxfM Unit := fun _ p => Out.ok () p [] [] [q]

/-- ReadFileExt::read_at_offset: save the cursor, seek to the offset, run
the inner step, restore the cursor, return the inner result. -/
def read_at_offset {α : Type} (off : Nat) (f : NxfM α) : NxfM α := do
  let save ← tellM
  seek off
  let r ← f
  seek save
  pure r

/-- Read n records with the given one-record reader, in order
(a for-loop pushing onto a vector). -/
def readN {α : Type} (n : Nat) (one : NxfM α) : NxfM (List α) :=
  match n with
  | 0 => pure []
  | k + 1 => do
    let x ← one
    let xs ← readN k one
    pure (x :: xs)

/-- UTF-8 validity of a byte list, per RFC 3629, matching Rust's
String::from_utf8 check: continuation bytes in 0x80..0xBF, no overlong
forms, no surrogates, maximum U+10FFFF. -/
def isCont (b : Nat) : Bool := 0x80 ≤ b && b ≤ 0xBF

def isValidUtf8 : List Nat → Bool
  | [] => true
  | b :: rest =>
    if b ≤ 0x7F then isValidUtf8 rest
    else
      match rest with
      | [] => false
      | c1 :: rest1 =>
        if 0xC2 ≤ b && b ≤ 0xDF then isCont c1 && isValidUtf8 rest1
        else
          match rest1 with
          | [] => false
          | c2 :: rest2 =>
            if b = 0xE0 then
              (0xA0 ≤ c1 && c1 ≤ 0xBF) && isCont c2 && isValidUtf8 rest2
            else if 0xE1 ≤ b && b ≤ 0xEC then
              isCont c1 && isCont c2 && isValidUtf8 rest2
            else if b = 0xED then
              (0x80 ≤ c1 && c1 ≤ 0x9F) && isCont c2 && isValidUtf8 rest2
            else if 0xEE ≤ b && b ≤ 0xEF then
              isCont c1 && isCont c2 && isValidUtf8 rest2
            else
              match rest2 with
              | [] => false
              | c3 :: rest3 =>
                if b = 0xF0 then
                  (0x90 ≤ c1 && c1 ≤ 0xBF) && isCont c2 && isCont c3
                    && isValidUtf8 rest3
                else if 0xF1 ≤ b && b ≤ 0xF3 then
                  isCont c1 && isCont c2 && isCont c3 && isValidUtf8 rest3
                else if b = 0xF4 then
                  (0x80 ≤ c1 && c1 ≤ 0x8F) && isCont c2 && isCont c3
                    && isValidUtf8 rest3
                else false

/-- The bytes a null-terminated string read starting at p will accumulate:
everything up to the first zero byte or the end of input. -/
def strBytes (d : List Nat) (p : Nat) : List Nat :=
  (d.drop p).takeWhile (fun b => b ≠ 0)

/-- Loop body of read_string: pull bytes until a zero byte or end of input.
The fuel is instantiated with the number of bytes remaining. -/
def readStrAux : Nat → NxfM (List Nat)
  | 0 => pure []
  | f + 1 => do
    match ← nextByte with
    | none => pure []
    | some 0 => pure []
    | some b => do
      let rest ← readStrAux f
      pure (b :: rest)

/-- ReadFileExt::read_string: accumulate bytes until a zero byte or end of
input, then String::from_utf8(buffer).unwrap() - a panic on invalid UTF-8.
The ghost log records the position where the string decode began. -/
def read_string : NxfM (List Nat) := fun d p =>
  (do
    let ps ← tellM
    logStr ps
    let buf ← readStrAux (d.length - p)
    if isValidUtf8 buf then pure buf else panicM) d p

/- Projections on outcomes, used to state concrete counterexamples without
spelling out the full ghost logs. -/

def isOkB {α : Type} : Out α → Bool
  | Out.ok _ _ _ _ _ => true
  | _ => false

def valOf {α : Type} : Out α → Option α
  | Out.ok a _ _ _ _ => some a
  | _ => none

def posOf {α : Type} : Out α → Option Nat
  | Out.ok _ p _ _ _ => some p
  | _ => none

def rlogOf {α : Type} : Out α → List Nat
  | Out.ok _ _ r _ _ => r
  | _ => []

def mlogOf {α : Type} : Out α → List Nat
  | Out.ok _ _ _ m _ => m
  | _ => []

def slogOf {α : Type} : Out α → List Nat
  | Out.ok _ _ _ _ s => s
  | _ => []

/- Record types and their decoders, mirroring src/nxf/src/lib.rs. -/

structure NxfMaterial where
  tex_pmi : Nat
  ref_pmi : Nat
  tex_name : List Nat
  ref_map : Nat
  ref_r : Nat
  ref_g : Nat
  ref_b : Nat
  ref_a : Nat
  flags : Nat
  alpha_mode : Nat
  env_map_alpha_mode : Nat
deriving DecidableEq

/-- NxfMaterial::from_read.  The ghost logMat records the position at which
this material decode began. -/
def NxfMaterial.from_read : NxfM NxfMaterial := do
  let here ← tellM
  logMat here
  let tex_pmi ← readU32
  let ref_pmi ← readU32
  let tex_name_offset ← readU32
  let tex_name ← read_at_offset tex_name_offset read_string
  let ref_map ← readU32
  let ref_r ← readU8
  let ref_g ← readU8
  let ref_b ← readU8
  let ref_a ← readU8
  let flags ← readU32
  let alpha_mode ← readU32
  let env_map_alpha_mode ← readU32
  let _pad1 ← readU32
  let _pad2 ← readU32
  pure { tex_pmi := tex_pmi, ref_pmi := ref_pmi, tex_name := tex_name,
         ref_map := ref_map, ref_r := ref_r, ref_g := ref_g, ref_b := ref_b,
         ref_a := ref_a, flags := flags, alpha_mode := alpha_mode,
         env_map_alpha_mode := env_map_alpha_mode }

/-- Loop of NxfMaterial::list_from_read: while offset is not 0, seek to it,
decode one material, then read the bare next-record offset that follows the
record.  fuel bounds the number of iterations the model will unfold; the
Rust loop has no such bound, so an execution that is diverge for every fuel
models non-termination. -/
def matListLoop (fuel off : Nat) : NxfM (List NxfMaterial) :=
  if off = 0 then pure []
  else
    match fuel with
    | 0 => divergeM
    | f + 1 => do
      seek off
      let mat ← NxfMaterial.from_read
      let nxt ← readU32
      let rest ← matListLoop f nxt
      pure (mat :: rest)

/-- NxfMaterial::list_from_read: save the cursor, run the chain loop,
restore the cursor. -/
def NxfMaterial.list_from_read (fuel off : Nat) : NxfM (List NxfMaterial) := do
  let save ← tellM
  let ms ← matListLoop fuel off
  seek save
  pure ms

structure Vec3 where
  x : Nat
  y : Nat
  z : Nat
deriving DecidableEq

/-- Vec3::from_read (f32 bit patterns). -/
def Vec3.from_read : NxfM Vec3 := do
  let x ← readF32
  let y ← readF32
  let z ← readF32
  pure { x := x, y := y, z := z }

structure Color where
  r : Nat
  g : Nat
  b : Nat
  a : Nat
deriving DecidableEq

/-- Color::from_read. -/
def Color.from_read : NxfM Color := do
  let r ← readU8
  let g ← readU8
  let b ← readU8
  let a ← readU8
  pure { r := r, g := g, b := b, a := a }

structure Uv where
  u : Nat
  v : Nat
deriving DecidableEq

/-- Uv::from_read (f32 bit patterns). -/
def Uv.from_read : NxfM Uv := do
  let u ← readF32
  let v ← readF32
  pure { u := u, v := v }

structure NxfArray where
  min_x : Nat
  min_y : Nat
  min_z : Nat
  max_x : Nat
  max_y : Nat
  max_z : Nat
  c_x : Nat
  c_y : Nat
  c_z : Nat
  radius : Nat
  max_verts : Nat
  max_normals : Nat
  max_cols : Nat
  max_uvs : Nat
  verts : List Vec3
  normals : List Vec3
  colors : List Color
  uvs : List Uv
  flags : Nat
deriving DecidableEq

/-- One conditional buffer of the vertex-array block: the offset is tested
against 0 before being dereferenced; a zero offset yields the empty buffer
and the count is ignored. -/
def readBufferIf {α : Type} (off cnt : Nat) (one : NxfM α) : NxfM (List α) :=
  if off ≠ 0 then read_at_offset off (readN cnt one) else pure []

/-- NxfArray::from_read.  The counts (num_uvs, num_normals, num_verts,
num_cols) are consumed at their file positions but not retained in the
structure; nothing checks them against the capacities read after them. -/
def NxfArray.from_read : NxfM NxfArray := do
  let min_x ← readF32
  let min_y ← readF32
  let min_z ← readF32
  let num_uvs ← readU32
  let max_x ← readF32
  let max_y ← readF32
  let max_z ← readF32
  let num_normals ← readU32
  let c_x ← readF32
  let c_y ← readF32
  let c_z ← readF32
  let radius ← readF32
  let num_verts ← readU32
  let num_cols ← readU32
  let max_verts ← readU32
  let max_normals ← readU32
  let max_cols ← readU32
  let max_uvs ← readU32
  let verts_offset ← readU32
  let verts ← readBufferIf verts_offset num_verts Vec3.from_read
  let normals_offset ← readU32
  let normals ← readBufferIf normals_offset num_normals Vec3.from_read
  let colors_offset ← readU32
  let colors ← readBufferIf colors_offset num_cols Color.from_read
  let uvs_offset ← readU32
  let uvs ← readBufferIf uvs_offset num_uvs Uv.from_read
  let flags ← readU32
  let _pad1 ← readU32
  let _pad2 ← readU32
  pure { min_x := min_x, min_y := min_y, min_z := min_z,
         max_x := max_x, max_y := max_y, max_z := max_z,
         c_x := c_x, c_y := c_y, c_z := c_z, radius := radius,
         max_verts := max_verts, max_normals := max_normals,
         max_cols := max_cols, max_uvs := max_uvs,
         verts := verts, normals := normals, colors := colors, uvs := uvs,
         flags := flags }

structure NxfColLitTri where
  v0 : Nat
  n0 : Nat
  c0 : Nat
  v1 : Nat
  n1 : Nat
  c1 : Nat
  v2 : Nat
  n2 : Nat
  c2 : Nat
deriving DecidableEq

/-- NxfColLitTri::from_read: 9 big-endian u16 fields, 18 bytes. -/
def NxfColLitTri.from_read : NxfM NxfColLitTri := do
  let v0 ← readU16
  let n0 ← readU16
  let c0 ← readU16
  let v1 ← readU16
  let n1 ← readU16
  let c1 ← readU16
  let v2 ← readU16
  let n2 ← readU16
  let c2 ← readU16
  pure { v0 := v0, n0 := n0, c0 := c0, v1 := v1, n1 := n1, c1 := c1,
         v2 := v2, n2 := n2, c2 := c2 }

structure NxfTexLitTri where
  v0 : Nat
  n0 : Nat
  c0 : Nat
  uv0 : Nat
  v1 : Nat
  n1 : Nat
  c1 : Nat
  uv1 : Nat
  v2 : Nat
  n2 : Nat
  c2 : Nat
  uv2 : Nat
deriving DecidableEq

/-- NxfTexLitTri::from_read: 12 big-endian u16 fields, 24 bytes. -/
def NxfTexLitTri.from_read : NxfM NxfTexLitTri := do
  let v0 ← readU16
  let n0 ← readU16
  let c0 ← readU16
  let uv0 ← readU16
  let v1 ← readU16
  let n1 ← readU16
  let c1 ← readU16
  let uv1 ← readU16
  let v2 ← readU16
  let n2 ← readU16
  let c2 ← readU16
  let uv2 ← readU16
  pure { v0 := v0, n0 := n0, c0 := c0, uv0 := uv0,
         v1 := v1, n1 := n1, c1 := c1, uv1 := uv1,
         v2 := v2, n2 := n2, c2 := c2, uv2 := uv2 }

structure NxfTexUnlitTri where
  v0 : Nat
  c0 : Nat
  uv0 : Nat
  v1 : Nat
  c1 : Nat
  uv1 : Nat
  v2 : Nat
  c2 : Nat
  uv2 : Nat
deriving DecidableEq

/-- NxfTexUnlitTri::from_read: 9 big-endian u16 fields, 18 bytes. -/
def NxfTexUnlitTri.from_read : NxfM NxfTexUnlitTri := do
  let v0 ← readU16
  let c0 ← readU16
  let uv0 ← readU16
  let v1 ← readU16
  let c1 ← readU16
  let uv1 ← readU16
  let v2 ← readU16
  let c2 ← readU16
  let uv2 ← readU16
  pure { v0 := v0, c0 := c0, uv0 := uv0, v1 := v1, c1 := c1, uv1 := uv1,
         v2 := v2, c2 := c2, uv2 := uv2 }

structure NxfColUnlitTri where
  v0 : Nat
  c0 : Nat
  v1 : Nat
  c1 : Nat
  v2 : Nat
  c2 : Nat
deriving DecidableEq

/-- NxfColUnlitTri::from_read: 6 big-endian u16 fields, 12 bytes. -/
def NxfColUnlitTri.from_read : NxfM NxfColUnlitTri := do
  let v0 ← readU16
  let c0 ← readU16
  let v1 ← readU16
  let c1 ← readU16
  let v2 ← readU16
  let c2 ← readU16
  pure { v0 := v0, c0 := c0, v1 := v1, c1 := c1, v2 := v2, c2 := c2 }

structure NxfTexLitEnvTri where
  v0 : Nat
  n0 : Nat
  c0 : Nat
  uv0 : Nat
  m0 : Nat
  v1 : Nat
  n1 : Nat
  c1 : Nat
  uv1 : Nat
  m1 : Nat
  v2 : Nat
  n2 : Nat
  c2 : Nat
  uv2 : Nat
  m2 : Nat
deriving DecidableEq

/-- NxfTexLitEnvTri::from_read: 15 big-endian u16 fields, 30 bytes. -/
def NxfTexLitEnvTri.from_read : NxfM NxfTexLitEnvTri := do
  let v0 ← readU16
  let n0 ← readU16
  let c0 ← readU16
  let uv0 ← readU16
  let m0 ← readU16
  let v1 ← readU16
  let n1 ← readU16
  let c1 ← readU16
  let uv1 ← readU16
  let m1 ← readU16
  let v2 ← readU16
  let n2 ← readU16
  let c2 ← readU16
  let uv2 ← readU16
  let m2 ← readU16
  pure { v0 := v0, n0 := n0, c0 := c0, uv0 := uv0, m0 := m0,
         v1 := v1, n1 := n1, c1 := c1, uv1 := uv1, m1 := m1,
         v2 := v2, n2 := n2, c2 := c2, uv2 := uv2, m2 := m2 }

structure NxfColLitEnvTri where
  v0 : Nat
  n0 : Nat
  c0 : Nat
  m0 : Nat
  v1 : Nat
  n1 : Nat
  c1 : Nat
  m1 : Nat
  v2 : Nat
  n2 : Nat
  c2 : Nat
  m2 : Nat
deriving DecidableEq

/-- NxfColLitEnvTri::from_read: 12 big-endian u16 fields, 24 bytes. -/
def NxfColLitEnvTri.from_read : NxfM NxfColLitEnvTri := do
  let v0 ← readU16
  let n0 ← readU16
  let c0 ← readU16
  let m0 ← readU16
  let v1 ← readU16
  let n1 ← readU16
  let c1 ← readU16
  let m1 ← readU16
  let v2 ← readU16
  let n2 ← readU16
  let c2 ← readU16
  let m2 ← readU16
  pure { v0 := v0, n0 := n0, c0 := c0, m0 := m0,
         v1 := v1, n1 := n1, c1 := c1, m1 := m1,
         v2 := v2, n2 := n2, c2 := c2, m2 := m2 }

inductive NxfFaces : Type where
  | ColLitTri : List NxfColLitTri → NxfFaces
  | TexLitTri : List NxfTexLitTri → NxfFaces
  | TexUnlitTri : List NxfTexUnlitTri → NxfFaces
  | ColUnlitTri : List NxfColUnlitTri → NxfFaces
  | TexLitEnvTri : List NxfTexLitEnvTri → NxfFaces
  | ColLitEnvTri : List NxfColLitEnvTri → NxfFaces
deriving DecidableEq

/-- NxfFaces::len. -/
def NxfFaces.len : NxfFaces → Nat
  | NxfFaces.ColLitTri faces => faces.length
  | NxfFaces.TexLitTri faces => faces.length
  | NxfFaces.TexUnlitTri faces => faces.length
  | NxfFaces.ColUnlitTri faces => faces.length
  | NxfFaces.TexLitEnvTri faces => faces.length
  | NxfFaces.ColLitEnvTri faces => faces.length

/-- NxfFaces::from_read: dispatch on the face-type tag; the default match
arm of the Rust source is a panic (process abort), not an error return. -/
def NxfFaces.from_read (facelist_type num : Nat) : NxfM NxfFaces :=
  if facelist_type = 6 then do
    let faces ← readN num NxfColLitTri.from_read
    pure (NxfFaces.ColLitTri faces)
  else if facelist_type = 8 then do
    let faces ← readN num NxfTexLitTri.from_read
    pure (NxfFaces.TexLitTri faces)
  else if facelist_type = 10 then do
    let faces ← readN num NxfTexUnlitTri.from_read
    pure (NxfFaces.TexUnlitTri faces)
  else if facelist_type = 11 then do
    let faces ← readN num NxfColUnlitTri.from_read
    pure (NxfFaces.ColUnlitTri faces)
  else if facelist_type = 20 then do
    let faces ← readN num NxfTexLitEnvTri.from_read
    pure (NxfFaces.TexLitEnvTri faces)
  else if facelist_type = 21 then do
    let faces ← readN num NxfColLitEnvTri.from_read
    pure (NxfFaces.ColLitEnvTri faces)
  else panicM

structure NxfFacelist where
  flags : Nat
  attribs : Nat
  material : NxfMaterial
  faces : NxfFaces
  next_facelist : Nat
  display_list : Nat
  display_list_size : Nat
deriving DecidableEq

/-- NxfFacelist::from_read.  The material offset and the faces offset are
dereferenced unconditionally through read_at_offset. -/
def NxfFacelist.from_read : NxfM NxfFacelist := do
  let flags ← readU16
  let facelist_type ← readU8
  let attribs ← readU8
  let _pad ← readU32
  let material_offset ← readU32
  let material ← read_at_offset material_offset NxfMaterial.from_read
  let num_faces ← readU32
  let faces_offset ← readU32
  let faces ← read_at_offset faces_offset (NxfFaces.from_read facelist_type num_faces)
  let next_facelist ← readU32
  let display_list ← readU32
  let display_list_size ← readU32
  pure { flags := flags, attribs := attribs, material := material,
         faces := faces, next_facelist := next_facelist,
         display_list := display_list,
         display_list_size := display_list_size }

/-- Loop of NxfFacelist::list_from_read: the next offset is the
next_facelist field stored inside the record just decoded. -/
def flListLoop (fuel off : Nat) : NxfM (List NxfFacelist) :=
  if off = 0 then pure []
  else
    match fuel with
    | 0 => divergeM
    | f + 1 => do
      seek off
      let fl ← NxfFacelist.from_read
      let rest ← flListLoop f fl.next_facelist
      pure (fl :: rest)

/-- NxfFacelist::list_from_read. -/
def NxfFacelist.list_from_read (fuel off : Nat) : NxfM (List NxfFacelist) := do
  let save ← tellM
  let fls ← flListLoop fuel off
  seek save
  pure fls

structure NxfFacelistSet where
  flags : Nat
  facelists : List NxfFacelist
  mat_palette : Option Unit
deriving DecidableEq

/-- NxfFacelistSet::from_read (matrix palettes are not read; the offset is
consumed and discarded). -/
def NxfFacelistSet.from_read (fuel : Nat) : NxfM NxfFacelistSet := do
  let flags ← readU32
  let _pad ← readU32
  let _num_lists ← readU32
  let first_facelist ← readU32
  let facelists ← NxfFacelist.list_from_read fuel first_facelist
  let _mat_palette_offset ← readU32
  pure { flags := flags, facelists := facelists, mat_palette := none }

/-- Loop of NxfFacelistSet::list_from_read: the next offset is a bare u32
read immediately after the record.  inner is the fuel handed to each
record's own facelist chain; fuel bounds this loop's iterations. -/
def flsListLoop (inner : Nat) (fuel off : Nat) : NxfM (List NxfFacelistSet) :=
  if off = 0 then pure []
  else
    match fuel with
    | 0 => divergeM
    | f + 1 => do
      seek off
      let st ← NxfFacelistSet.from_read inner
      let nxt ← readU32
      let rest ← flsListLoop inner f nxt
      pure (st :: rest)

/-- NxfFacelistSet::list_from_read. -/
def NxfFacelistSet.list_from_read (inner fuel off : Nat) :
    NxfM (List NxfFacelistSet) := do
  let save ← tellM
  let sts ← flsListLoop inner fuel off
  seek save
  pure sts

/-- One slot of the interned-string table of NxfObjGeom::from_read: read a
string offset and dereference it. -/
def stringSlot : NxfM (List Nat) := do
  let string_offset ← readU32
  read_at_offset string_offset read_string

/-- The string-table reader of NxfObjGeom::from_read (the closure at the
strings_offset): num_strings slots, each a pointer-chased string. -/
def readStringTable (num_strings : Nat) : NxfM (List (List Nat)) :=
  readN num_strings stringSlot

structure NxfObjGeom where
  id : List Nat
  endian : Nat
  version : Nat
  flags : Nat
  alpha_mode : Nat
  env_map_alpha_mode : Nat
  strings : List (List Nat)
  materials : List NxfMaterial
  arrays : NxfArray
  facelist_sets : List NxfFacelistSet
  display_list : Nat
  display_list_size : Nat
deriving DecidableEq

/-- NxfObjGeom::from_read, the root decoder.  fuel bounds the chain loops
(the Rust loops are unbounded). -/
def NxfObjGeom.from_read (fuel : Nat) : NxfM NxfObjGeom := do
  let id ← readN 4 readU8
  let endian ← readU32
  let version ← readF32
  let flags ← readU32
  let alpha_mode ← readU32
  let env_map_alpha_mode ← readU32
  let num_strings ← readU16
  let _pad ← readU16
  let strings_offset ← readU32
  let strings ← read_at_offset strings_offset (readStringTable num_strings)
  let material_offset ← readU32
  let materials ← NxfMaterial.list_from_read fuel material_offset
  let arrays_offset ← readU32
  let arrays ← read_at_offset arrays_offset NxfArray.from_read
  let first_facelist_set ← readU32
  let facelist_sets ← NxfFacelistSet.list_from_read fuel fuel first_facelist_set
  let display_list ← readU32
  let display_list_size ← readU32
  let _expanded ← readU32
  let _pad1 ← readU32
  let _pad2 ← readU32
  let _pad3 ← readU32
  pure { id := id, endian := endian, version := version, flags := flags,
         alpha_mode := alpha_mode, env_map_alpha_mode := env_map_alpha_mode,
         strings := strings, materials := materials, arrays := arrays,
         facelist_sets := facelist_sets, display_list := display_list,
         display_list_size := display_list_size }

/-- The value NxfMaterial::from_read produces when run at a given offset,
as a pure partial function of the source bytes and the offset. -/
def matAt (d : List Nat) (off : Nat) : Option NxfMaterial :=
  valOf (NxfMaterial.from_read d off)

/-- The value read_string produces when run at a given offset, as a pure
partial function of the source bytes and the offset. -/
def strAt (d : List Nat) (off : Nat) : Option (List Nat) :=
  valOf (read_string d off)

/- Inversion toolkit: characterizations of successful runs of the monadic
primitives, used to take apart hypotheses of the shape
run-of-decoder = Out.ok value position logs. -/

theorem bind_def {α β : Type} (m : NxfM α) (k : α → NxfM β) :
    (m >>= k) = bindM m k := rfl

theorem pure_def {α : Type} (a : α) : (pure a : NxfM α) = pureM a := rfl

theorem bind_ok_iff {α β : Type} {m : NxfM α} {k : α → NxfM β} {d : List Nat}
    {p : Nat} {b : β} {p2 : Nat} {R M S : List Nat} :
    (m >>= k) d p = Out.ok b p2 R M S ↔
      ∃ a p1 r1 m1 s1 r2 m2 s2, m d p = Out.ok a p1 r1 m1 s1 ∧
        k a d p1 = Out.ok b p2 r2 m2 s2 ∧
        R = r1 ++ r2 ∧ M = m1 ++ m2 ∧ S = s1 ++ s2 := by
  rw [bind_def]
  unfold bindM
  constructor
  · intro he
    split at he
    · next a p1 r1 m1 s1 h1 =>
      split at he
      · next b2 p2' r2 m2 s2 h2 =>
        injection he with hb hp hr hm hs
        subst hb; subst hp
        exact ⟨a, p1, r1, m1, s1, r2, m2, s2, h1, h2, hr.symm, hm.symm, hs.symm⟩
      · exact absurd he (by simp)
      · exact absurd he (by simp)
      · exact absurd he (by simp)
    · exact absurd he (by simp)
    · exact absurd he (by simp)
    · exact absurd he (by simp)
  · rintro ⟨a, p1, r1, m1, s1, r2, m2, s2, h1, h2, rfl, rfl, rfl⟩
    rw [h1]
    show (match k a d p1 with
      | Out.ok b p'' r2 m2 s2 => Out.ok b p'' (r1 ++ r2) (m1 ++ m2) (s1 ++ s2)
      | Out.ioError => Out.ioError
      | Out.panicked => Out.panicked
      | Out.diverge => Out.diverge) = Out.ok b p2 (r1 ++ r2) (m1 ++ m2) (s1 ++ s2)
    rw [h2]

theorem pure_ok_iff {α : Type} {a b : α} {d : List Nat} {p p2 : Nat}
    {R M S : List Nat} :
    (pure a : NxfM α) d p = Out.ok b p2 R M S ↔
      b = a ∧ p2 = p ∧ R = [] ∧ M = [] ∧ S = [] := by
  rw [pure_def]
  unfold pureM
  constructor
  · intro he; injection he with h1 h2 h3 h4 h5
    exact ⟨h1.symm, h2.symm, h3.symm, h4.symm, h5.symm⟩
  · rintro ⟨rfl, rfl, rfl, rfl, rfl⟩; rfl

theorem tellM_ok_iff {d : List Nat} {p : Nat} {b p2 : Nat} {R M S : List Nat} :
    tellM d p = Out.ok b p2 R M S ↔
      b = p ∧ p2 = p ∧ R = [] ∧ M = [] ∧ S = [] := by
  unfold tellM
  constructor
  · intro he; injection he with h1 h2 h3 h4 h5
    exact ⟨h1.symm, h2.symm, h3.symm, h4.symm, h5.symm⟩
  · rintro ⟨rfl, rfl, rfl, rfl, rfl⟩; rfl

theorem seek_ok_iff {q : Nat} {d : List Nat} {p : Nat} {b : Unit} {p2 : Nat}
    {R M S : List Nat} :
    seek q d p = Out.ok b p2 R M S ↔
      p2 = q ∧ R = [] ∧ M = [] ∧ S = [] := by
  unfold seek
  constructor
  · intro he; injection he with h1 h2 h3 h4 h5
    exact ⟨h2.symm, h3.symm, h4.symm, h5.symm⟩
  · rintro ⟨rfl, rfl, rfl, rfl⟩; rfl

theorem logMat_ok_iff {q : Nat} {d : List Nat} {p : Nat} {b : Unit} {p2 : Nat}
    {R M S : List Nat} :
    logMat q d p = Out.ok b p2 R M S ↔
      p2 = p ∧ R = [] ∧ M = [q] ∧ S = [] := by
  unfold logMat
  constructor
  · intro he; injection he with h1 h2 h3 h4 h5
    exact ⟨h2.symm, h3.symm, h4.symm, h5.symm⟩
  · rintro ⟨rfl, rfl, rfl, rfl⟩; rfl

theorem logStr_ok_iff {q : Nat} {d : List Nat} {p : Nat} {b : Unit} {p2 : Nat}
    {R M S : List Nat} :
    logStr q d p = Out.ok b p2 R M S ↔
      p2 = p ∧ R = [] ∧ M = [] ∧ S = [q] := by
  unfold logStr
  constructor
  · intro he; injection he with h1 h2 h3 h4 h5
    exact ⟨h2.symm, h3.symm, h4.symm, h5.symm⟩
  · rintro ⟨rfl, rfl, rfl, rfl⟩; rfl

theorem readU8_ok_iff {d : List Nat} {p : Nat} {b p1 : Nat} {r m s : List Nat} :
    readU8 d p = Out.ok b p1 r m s ↔
      p < d.length ∧ b = byteAt d p ∧ p1 = p + 1 ∧ r = [p] ∧ m = [] ∧ s = [] := by
  unfold readU8
  rw [bind_def]
  unfold bindM nextByte
  by_cases h : p < d.length
  · simp only [if_pos h]
    rw [pure_def]
    unfold pureM
    constructor
    · intro he; injection he with h1 h2 h3 h4 h5
      exact ⟨h, h1.symm, h2.symm, h3.symm, h4.symm, h5.symm⟩
    · rintro ⟨_, rfl, rfl, rfl, rfl, rfl⟩; rfl
  · simp only [if_neg h]
    unfold ioErrorM
    constructor
    · intro he; exact absurd he (by simp)
    · rintro ⟨hc, _⟩; exact absurd hc h

theorem readU16_ok_iff {d : List Nat} {p : Nat} {b p1 : Nat} {r m s : List Nat} :
    readU16 d p = Out.ok b p1 r m s ↔
      p + 2 ≤ d.length ∧ b = get16 d p ∧ p1 = p + 2 ∧ r = [p, p + 1] ∧
        m = [] ∧ s = [] := by
  unfold readU16
  simp only [bind_ok_iff, readU8_ok_iff, pure_ok_iff]
  constructor
  · rintro ⟨a, q1, r1, m1, s1, r2, m2, s2, ⟨h1, rfl, rfl, rfl, rfl, rfl⟩,
      ⟨a2, q2, r3, m3, s3, r4, m4, s4, ⟨h2, rfl, rfl, rfl, rfl, rfl⟩,
        ⟨rfl, rfl, rfl, rfl, rfl⟩, rfl, rfl, rfl⟩, rfl, rfl, rfl⟩
    exact ⟨by omega, rfl, rfl, rfl, rfl, rfl⟩
  · rintro ⟨h, rfl, rfl, rfl, rfl, rfl⟩
    exact ⟨byteAt d p, p + 1, [p], [], [], [p + 1], [], [],
      ⟨by omega, rfl, rfl, rfl, rfl, rfl⟩,
      ⟨byteAt d (p + 1), p + 2, [p + 1], [], [], [], [], [],
        ⟨by omega, rfl, rfl, rfl, rfl, rfl⟩,
        ⟨rfl, rfl, rfl, rfl, rfl⟩, rfl, rfl, rfl⟩, rfl, rfl, rfl⟩

theorem readU32_ok_iff {d : List Nat} {p : Nat} {b p1 : Nat} {r m s : List Nat} :
    readU32 d p = Out.ok b p1 r m s ↔
      p + 4 ≤ d.length ∧ b = get32 d p ∧ p1 = p + 4 ∧
        r = [p, p + 1, p + 2, p + 3] ∧ m = [] ∧ s = [] := by
  unfold readU32
  simp only [bind_ok_iff, readU8_ok_iff, pure_ok_iff]
  constructor
  · rintro ⟨a, q1, r1, m1, s1, r2, m2, s2, ⟨h1, rfl, rfl, rfl, rfl, rfl⟩,
      ⟨a2, q2, r3, m3, s3, r4, m4, s4, ⟨h2, rfl, rfl, rfl, rfl, rfl⟩,
        ⟨a3, q3, r5, m5, s5, r6, m6, s6, ⟨h3, rfl, rfl, rfl, rfl, rfl⟩,
          ⟨a4, q4, r7, m7, s7, r8, m8, s8, ⟨h4, rfl, rfl, rfl, rfl, rfl⟩,
            ⟨rfl, rfl, rfl, rfl, rfl⟩, rfl, rfl, rfl⟩,
          rfl, rfl, rfl⟩, rfl, rfl, rfl⟩, rfl, rfl, rfl⟩
    exact ⟨by omega, rfl, rfl, rfl, rfl, rfl⟩
  · rintro ⟨h, rfl, rfl, rfl, rfl, rfl⟩
    exact ⟨byteAt d p, p + 1, [p], [], [], [p + 1, p + 2, p + 3], [], [],
      ⟨by omega, rfl, rfl, rfl, rfl, rfl⟩,
      ⟨byteAt d (p + 1), p + 2, [p + 1], [], [], [p + 2, p + 3], [], [],
        ⟨by omega, rfl, rfl, rfl, rfl, rfl⟩,
        ⟨byteAt d (p + 2), p + 3, [p + 2], [], [], [p + 3], [], [],
          ⟨by omega, rfl, rfl, rfl, rfl, rfl⟩,
          ⟨byteAt d (p + 3), p + 4, [p + 3], [], [], [], [], [],
            ⟨by omega, rfl, rfl, rfl, rfl, rfl⟩,
            ⟨rfl, rfl, rfl, rfl, rfl⟩, rfl, rfl, rfl⟩,
          rfl, rfl, rfl⟩, rfl, rfl, rfl⟩, rfl, rfl, rfl⟩

theorem readF32_ok_iff {d : List Nat} {p : Nat} {b p1 : Nat} {r m s : List Nat} :
    readF32 d p = Out.ok b p1 r m s ↔
      p + 4 ≤ d.length ∧ b = get32 d p ∧ p1 = p + 4 ∧
        r = [p, p + 1, p + 2, p + 3] ∧ m = [] ∧ s = [] := readU32_ok_iff

/-- Successful runs of read_at_offset: the inner step runs at the given
offset, and the cursor comes back to where it started. -/
theorem read_at_offset_ok_iff {α : Type} {off : Nat} {f : NxfM α}
    {d : List Nat} {p : Nat} {b : α} {p2 : Nat} {R M S : List Nat} :
    read_at_offset off f d p = Out.ok b p2 R M S ↔
      ∃ q, f d off = Out.ok b q R M S ∧ p2 = p := by
  unfold read_at_offset
  simp only [bind_ok_iff, tellM_ok_iff, seek_ok_iff, pure_ok_iff]
  constructor
  · rintro ⟨a, q1, r1, m1, s1, r2, m2, s2, ⟨rfl, rfl, rfl, rfl, rfl⟩,
      ⟨u1, q2, r3, m3, s3, r4, m4, s4, ⟨rfl, rfl, rfl, rfl⟩,
        ⟨a2, q3, r5, m5, s5, r6, m6, s6, hf,
          ⟨u2, q4, r7, m7, s7, r8, m8, s8, ⟨rfl, rfl, rfl, rfl⟩,
            ⟨rfl, rfl, rfl, rfl, rfl⟩, rfl, rfl, rfl⟩,
          rfl, rfl, rfl⟩, rfl, rfl, rfl⟩, rfl, rfl, rfl⟩
    exact ⟨q3, by simpa using hf, rfl⟩
  · rintro ⟨q, hf, rfl⟩
    exact ⟨p2, p2, [], [], [], R, M, S,
      ⟨rfl, rfl, rfl, rfl, rfl⟩,
      ⟨(), off, [], [], [], R, M, S, ⟨rfl, rfl, rfl, rfl⟩,
        ⟨b, q, R, M, S, [], [], [], hf,
          ⟨(), p2, [], [], [], [], [], [], ⟨rfl, rfl, rfl, rfl⟩,
            ⟨rfl, rfl, rfl, rfl, rfl⟩, rfl, rfl, rfl⟩,
          by simp, by simp, by simp⟩, by simp, by simp, by simp⟩,
      by simp, by simp, by simp⟩

/- Straight-line readers: a decode step that, whenever it succeeds, advances
the cursor by exactly w bytes, reads exactly the w consecutive positions
starting at the entry cursor, and decodes no materials or strings. -/

def StraightSpec {α : Type} (one : NxfM α) (w : Nat) : Prop :=
  ∀ d p a p1 r m s, one d p = Out.ok a p1 r m s →
    p1 = p + w ∧ r = List.range' p w ∧ m = [] ∧ s = []

theorem straight_pure {α : Type} (a : α) : StraightSpec (pure a) 0 := by
  intro d p b p1 r m s h
  rw [pure_ok_iff] at h
  obtain ⟨rfl, rfl, rfl, rfl, rfl⟩ := h
  simp [List.range']

theorem straight_bind {α β : Type} {m : NxfM α} {k : α → NxfM β} {w1 w2 : Nat}
    (h1 : StraightSpec m w1) (h2 : ∀ a, StraightSpec (k a) w2) :
    StraightSpec (m >>= k) (w1 + w2) := by
  intro d p b p2 R M S h
  rw [bind_ok_iff] at h
  obtain ⟨a, p1, r1, m1, s1, r2, m2, s2, hm, hk, rfl, rfl, rfl⟩ := h
  obtain ⟨hp1, hr1, rfl, rfl⟩ := h1 _ _ _ _ _ _ _ hm
  obtain ⟨hp2, hr2, rfl, rfl⟩ := h2 a _ _ _ _ _ _ _ hk
  subst hp1
  refine ⟨by omega, ?_, rfl, rfl⟩
  rw [hr1, hr2, Nat.add_comm w1 w2]
  simp [List.range'_append p w1 w2 1]

theorem straight_congr {α : Type} {m : NxfM α} {w w' : Nat}
    (h : StraightSpec m w) (hw : w = w') : StraightSpec m w' := hw ▸ h

theorem straight_readU8 : StraightSpec readU8 1 := by
  intro d p a p1 r m s h
  rw [readU8_ok_iff] at h
  obtain ⟨_, rfl, rfl, rfl, rfl, rfl⟩ := h
  simp [List.range']

theorem straight_readU16 : StraightSpec readU16 2 := by
  intro d p a p1 r m s h
  rw [readU16_ok_iff] at h
  obtain ⟨_, rfl, rfl, rfl, rfl, rfl⟩ := h
  refine ⟨rfl, ?_, rfl, rfl⟩
  simp [List.range']

theorem straight_readU32 : StraightSpec readU32 4 := by
  intro d p a p1 r m s h
  rw [readU32_ok_iff] at h
  obtain ⟨_, rfl, rfl, rfl, rfl, rfl⟩ := h
  refine ⟨rfl, ?_, rfl, rfl⟩
  simp [List.range']

theorem straight_readF32 : StraightSpec readF32 4 := straight_readU32

/-- readN of an n-record straight-line reader is a straight-line reader of
n times the width, and yields exactly n records. -/
theorem straight_readN {α : Type} {one : NxfM α} {w : Nat}
    (h : StraightSpec one w) : ∀ n, StraightSpec (readN n one) (n * w) := by
  intro n
  induction n with
  | zero => exact straight_congr (straight_pure []) (by omega)
  | succ k ih =>
    have : StraightSpec (readN (k + 1) one) (w + (k * w + 0)) :=
      straight_bind h (fun x => straight_bind ih (fun xs => straight_pure (x :: xs)))
    exact straight_congr this (by ring)

/-- A successful readN yields exactly n records. -/
theorem readN_ok_length {α : Type} {one : NxfM α} :
    ∀ {n : Nat} {d : List Nat} {p : Nat} {xs : List α} {p1 : Nat}
      {r m s : List Nat}, readN n one d p = Out.ok xs p1 r m s → xs.length = n := by
  intro n
  induction n with
  | zero =>
    intro d p xs p1 r m s h
    rw [readN, pure_ok_iff] at h
    obtain ⟨rfl, _⟩ := h
    rfl
  | succ k ih =>
    intro d p xs p1 r m s h
    rw [readN] at h
    rw [bind_ok_iff] at h
    obtain ⟨x, q1, r1, m1, s1, r2, m2, s2, hone, h, _⟩ := h
    rw [bind_ok_iff] at h
    obtain ⟨ys, q2, r3, m3, s3, r4, m4, s4, hrec, hp, _⟩ := h
    rw [pure_ok_iff] at hp
    obtain ⟨rfl, _⟩ := hp
    simp [ih hrec]

/- Record widths of the six triangle variants and the tag of a decoded
variant collection. -/

/-- Byte width of one triangle record of the given face-type tag. -/
def faceWidth (t : Nat) : Nat :=
  if t = 6 then 18
  else if t = 8 then 24
  else if t = 10 then 18
  else if t = 11 then 12
  else if t = 20 then 30
  else if t = 21 then 24
  else 0

/-- The face-type tag corresponding to the variant of a decoded
collection. -/
def variantTag : NxfFaces → Nat
  | NxfFaces.ColLitTri _ => 6
  | NxfFaces.TexLitTri _ => 8
  | NxfFaces.TexUnlitTri _ => 10
  | NxfFaces.ColUnlitTri _ => 11
  | NxfFaces.TexLitEnvTri _ => 20
  | NxfFaces.ColLitEnvTri _ => 21

theorem straight_colLitTri : StraightSpec NxfColLitTri.from_read 18 := by
  have h : StraightSpec NxfColLitTri.from_read (2 + (2 + (2 + (2 + (2 + (2 + (2 + (2 + (2 + (0)))))))))) := by
    unfold NxfColLitTri.from_read
    exact straight_bind straight_readU16 (fun _ =>
    straight_bind straight_readU16 (fun _ =>
    straight_bind straight_readU16 (fun _ =>
    straight_bind straight_readU16 (fun _ =>
    straight_bind straight_readU16 (fun _ =>
    straight_bind straight_readU16 (fun _ =>
    straight_bind straight_readU16 (fun _ =>
    straight_bind straight_readU16 (fun _ =>
    straight_bind straight_readU16 (fun _ =>
    straight_pure _)))))))))
  exact straight_congr h (by norm_num)

theorem straight_texLitTri : StraightSpec NxfTexLitTri.from_read 24 := by
  have h : StraightSpec NxfTexLitTri.from_read (2 + (2 + (2 + (2 + (2 + (2 + (2 + (2 + (2 + (2 + (2 + (2 + (0))))))))))))) := by
    unfold NxfTexLitTri.from_read
    exact straight_bind straight_readU16 (fun _ =>
    straight_bind straight_readU16 (fun _ =>
    straight_bind straight_readU16 (fun _ =>
    straight_bind straight_readU16 (fun _ =>
    straight_bind straight_readU16 (fun _ =>
    straight_bind straight_readU16 (fun _ =>
    straight_bind straight_readU16 (fun _ =>
    straight_bind straight_readU16 (fun _ =>
    straight_bind straight_readU16 (fun _ =>
    straight_bind straight_readU16 (fun _ =>
    straight_bind straight_readU16 (fun _ =>
    straight_bind straight_readU16 (fun _ =>
    straight_pure _))))))))))))
  exact straight_congr h (by norm_num)

theorem straight_texUnlitTri : StraightSpec NxfTexUnlitTri.from_read 18 := by
  have h : StraightSpec NxfTexUnlitTri.from_read (2 + (2 + (2 + (2 + (2 + (2 + (2 + (2 + (2 + (0)))))))))) := by
    unfold NxfTexUnlitTri.from_read
    exact straight_bind straight_readU16 (fun _ =>
    straight_bind straight_readU16 (fun _ =>
    straight_bind straight_readU16 (fun _ =>
    straight_bind straight_readU16 (fun _ =>
    straight_bind straight_readU16 (fun _ =>
    straight_bind straight_readU16 (fun _ =>
    straight_bind straight_readU16 (fun _ =>
    straight_bind straight_readU16 (fun _ =>
    straight_bind straight_readU16 (fun _ =>
    straight_pure _)))))))))
  exact straight_congr h (by norm_num)

theorem straight_colUnlitTri : StraightSpec NxfColUnlitTri.from_read 12 := by
  have h : StraightSpec NxfColUnlitTri.from_read (2 + (2 + (2 + (2 + (2 + (2 + (0))))))) := by
    unfold NxfColUnlitTri.from_read
    exact straight_bind straight_readU16 (fun _ =>
    straight_bind straight_readU16 (fun _ =>
    straight_bind straight_readU16 (fun _ =>
    straight_bind straight_readU16 (fun _ =>
    straight_bind straight_readU16 (fun _ =>
    straight_bind straight_readU16 (fun _ =>
    straight_pure _))))))
  exact straight_congr h (by norm_num)

theorem straight_texLitEnvTri : StraightSpec NxfTexLitEnvTri.from_read 30 := by
  have h : StraightSpec NxfTexLitEnvTri.from_read (2 + (2 + (2 + (2 + (2 + (2 + (2 + (2 + (2 + (2 + (2 + (2 + (2 + (2 + (2 + (0)))))))))))))))) := by
    unfold NxfTexLitEnvTri.from_read
    exact straight_bind straight_readU16 (fun _ =>
    straight_bind straight_readU16 (fun _ =>
    straight_bind straight_readU16 (fun _ =>
    straight_bind straight_readU16 (fun _ =>
    straight_bind straight_readU16 (fun _ =>
    straight_bind straight_readU16 (fun _ =>
    straight_bind straight_readU16 (fun _ =>
    straight_bind straight_readU16 (fun _ =>
    straight_bind straight_readU16 (fun _ =>
    straight_bind straight_readU16 (fun _ =>
    straight_bind straight_readU16 (fun _ =>
    straight_bind straight_readU16 (fun _ =>
    straight_bind straight_readU16 (fun _ =>
    straight_bind straight_readU16 (fun _ =>
    straight_bind straight_readU16 (fun _ =>
    straight_pure _)))))))))))))))
  exact straight_congr h (by norm_num)

theorem straight_colLitEnvTri : StraightSpec NxfColLitEnvTri.from_read 24 := by
  have h : StraightSpec NxfColLitEnvTri.from_read (2 + (2 + (2 + (2 + (2 + (2 + (2 + (2 + (2 + (2 + (2 + (2 + (0))))))))))))) := by
    unfold NxfColLitEnvTri.from_read
    exact straight_bind straight_readU16 (fun _ =>
    straight_bind straight_readU16 (fun _ =>
    straight_bind straight_readU16 (fun _ =>
    straight_bind straight_readU16 (fun _ =>
    straight_bind straight_readU16 (fun _ =>
    straight_bind straight_readU16 (fun _ =>
    straight_bind straight_readU16 (fun _ =>
    straight_bind straight_readU16 (fun _ =>
    straight_bind straight_readU16 (fun _ =>
    straight_bind straight_readU16 (fun _ =>
    straight_bind straight_readU16 (fun _ =>
    straight_bind straight_readU16 (fun _ =>
    straight_pure _))))))))))))
  exact straight_congr h (by norm_num)

theorem straight_vec3 : StraightSpec Vec3.from_read 12 := by
  have h : StraightSpec Vec3.from_read (4 + (4 + (4 + (0)))) := by
    unfold Vec3.from_read
    exact straight_bind straight_readF32 (fun _ =>
    straight_bind straight_readF32 (fun _ =>
    straight_bind straight_readF32 (fun _ =>
    straight_pure _)))
  exact straight_congr h (by norm_num)

theorem straight_color : StraightSpec Color.from_read 4 := by
  have h : StraightSpec Color.from_read (1 + (1 + (1 + (1 + (0))))) := by
    unfold Color.from_read
    exact straight_bind straight_readU8 (fun _ =>
    straight_bind straight_readU8 (fun _ =>
    straight_bind straight_readU8 (fun _ =>
    straight_bind straight_readU8 (fun _ =>
    straight_pure _))))
  exact straight_congr h (by norm_num)

theorem straight_uv : StraightSpec Uv.from_read 8 := by
  have h : StraightSpec Uv.from_read (4 + (4 + (0))) := by
    unfold Uv.from_read
    exact straight_bind straight_readF32 (fun _ =>
    straight_bind straight_readF32 (fun _ =>
    straight_pure _))
  exact straight_congr h (by norm_num)

/-- A successful run of NxfFaces::from_read advances the cursor by exactly
n times the record width of the tag, reads exactly those consecutive byte
positions (no padding), decodes no materials or strings, and yields n
entries of the variant shape selected by the tag. -/
theorem faces_from_read_ok_inv {t n : Nat} {d : List Nat} {p : Nat}
    {fs : NxfFaces} {p1 : Nat} {r m s : List Nat}
    (h : NxfFaces.from_read t n d p = Out.ok fs p1 r m s) :
    p1 = p + n * faceWidth t ∧ r = List.range' p (n * faceWidth t) ∧
      m = [] ∧ s = [] ∧ fs.len = n ∧ variantTag fs = t := by
  unfold NxfFaces.from_read at h
  by_cases h6 : t = 6
  · subst h6
    rw [if_pos rfl] at h
    rw [bind_ok_iff] at h
    obtain ⟨faces, q, r1, m1, s1, r2, m2, s2, hrn, hp, rfl, rfl, rfl⟩ := h
    rw [pure_ok_iff] at hp
    obtain ⟨rfl, rfl, rfl, rfl, rfl⟩ := hp
    obtain ⟨hq, hr, rfl, rfl⟩ := straight_readN straight_colLitTri n _ _ _ _ _ _ _ hrn
    have hl := readN_ok_length hrn
    subst hq
    refine ⟨by norm_num [faceWidth], by simp [faceWidth, hr], by simp, by simp,
      by simp [NxfFaces.len, hl], by simp [variantTag]⟩
  rw [if_neg h6] at h
  by_cases h8 : t = 8
  · subst h8
    rw [if_pos rfl] at h
    rw [bind_ok_iff] at h
    obtain ⟨faces, q, r1, m1, s1, r2, m2, s2, hrn, hp, rfl, rfl, rfl⟩ := h
    rw [pure_ok_iff] at hp
    obtain ⟨rfl, rfl, rfl, rfl, rfl⟩ := hp
    obtain ⟨hq, hr, rfl, rfl⟩ := straight_readN straight_texLitTri n _ _ _ _ _ _ _ hrn
    have hl := readN_ok_length hrn
    subst hq
    refine ⟨by norm_num [faceWidth], by simp [faceWidth, hr], by simp, by simp,
      by simp [NxfFaces.len, hl], by simp [variantTag]⟩
  rw [if_neg h8] at h
  by_cases h10 : t = 10
  · subst h10
    rw [if_pos rfl] at h
    rw [bind_ok_iff] at h
    obtain ⟨faces, q, r1, m1, s1, r2, m2, s2, hrn, hp, rfl, rfl, rfl⟩ := h
    rw [pure_ok_iff] at hp
    obtain ⟨rfl, rfl, rfl, rfl, rfl⟩ := hp
    obtain ⟨hq, hr, rfl, rfl⟩ := straight_readN straight_texUnlitTri n _ _ _ _ _ _ _ hrn
    have hl := readN_ok_length hrn
    subst hq
    refine ⟨by norm_num [faceWidth], by simp [faceWidth, hr], by simp, by simp,
      by simp [NxfFaces.len, hl], by simp [variantTag]⟩
  rw [if_neg h10] at h
  by_cases h11 : t = 11
  · subst h11
    rw [if_pos rfl] at h
    rw [bind_ok_iff] at h
    obtain ⟨faces, q, r1, m1, s1, r2, m2, s2, hrn, hp, rfl, rfl, rfl⟩ := h
    rw [pure_ok_iff] at hp
    obtain ⟨rfl, rfl, rfl, rfl, rfl⟩ := hp
    obtain ⟨hq, hr, rfl, rfl⟩ := straight_readN straight_colUnlitTri n _ _ _ _ _ _ _ hrn
    have hl := readN_ok_length hrn
    subst hq
    refine ⟨by norm_num [faceWidth], by simp [faceWidth, hr], by simp, by simp,
      by simp [NxfFaces.len, hl], by simp [variantTag]⟩
  rw [if_neg h11] at h
  by_cases h20 : t = 20
  · subst h20
    rw [if_pos rfl] at h
    rw [bind_ok_iff] at h
    obtain ⟨faces, q, r1, m1, s1, r2, m2, s2, hrn, hp, rfl, rfl, rfl⟩ := h
    rw [pure_ok_iff] at hp
    obtain ⟨rfl, rfl, rfl, rfl, rfl⟩ := hp
    obtain ⟨hq, hr, rfl, rfl⟩ := straight_readN straight_texLitEnvTri n _ _ _ _ _ _ _ hrn
    have hl := readN_ok_length hrn
    subst hq
    refine ⟨by norm_num [faceWidth], by simp [faceWidth, hr], by simp, by simp,
      by simp [NxfFaces.len, hl], by simp [variantTag]⟩
  rw [if_neg h20] at h
  by_cases h21 : t = 21
  · subst h21
    rw [if_pos rfl] at h
    rw [bind_ok_iff] at h
    obtain ⟨faces, q, r1, m1, s1, r2, m2, s2, hrn, hp, rfl, rfl, rfl⟩ := h
    rw [pure_ok_iff] at hp
    obtain ⟨rfl, rfl, rfl, rfl, rfl⟩ := hp
    obtain ⟨hq, hr, rfl, rfl⟩ := straight_readN straight_colLitEnvTri n _ _ _ _ _ _ _ hrn
    have hl := readN_ok_length hrn
    subst hq
    refine ⟨by norm_num [faceWidth], by simp [faceWidth, hr], by simp, by simp,
      by simp [NxfFaces.len, hl], by simp [variantTag]⟩
  rw [if_neg h21] at h
  exact absurd h (by simp [panicM])

/-- C2 (amended): for every byte source, cursor position, record count, and
face-type tag outside the set 6, 8, 10, 11, 20, 21, NxfFaces::from_read
deterministically aborts the process with a panic (the default match arm of
the Rust source is a panic, not an error return); it neither succeeds nor
skips any bytes of the face block. -/
theorem faces_unknown_tag_panics (t num : Nat) (d : List Nat) (p : Nat)
    (h6 : t ≠ 6) (h8 : t ≠ 8) (h10 : t ≠ 10) (h11 : t ≠ 11)
    (h20 : t ≠ 20) (h21 : t ≠ 21) :
    NxfFaces.from_read t num d p = Out.panicked := by
  unfold NxfFaces.from_read
  rw [if_neg h6, if_neg h8, if_neg h10, if_neg h11, if_neg h20, if_neg h21]
  rfl

/-- Witness for faces_unknown_tag_panics at tag 99, count 5. -/
theorem faces_unknown_tag_panics_witness :
    NxfFaces.from_read 99 5 [1, 2, 3] 0 = Out.panicked :=
  faces_unknown_tag_panics 99 5 [1, 2, 3] 0 (by decide) (by decide)
    (by decide) (by decide) (by decide) (by decide)

/-- C2 counterexample to the claim as stated: at tag 99 the decoder does
not return a format error value to its caller - the run is a panic
(process abort), not an error outcome. -/
theorem faces_unknown_tag_not_error_counterexample :
    NxfFaces.from_read 99 1 ([] : List Nat) 0 = Out.panicked ∧
      NxfFaces.from_read 99 1 ([] : List Nat) 0 ≠ Out.ioError := by
  exact ⟨by decide, by decide⟩

/-- C6: for each tag t in the set 6, 8, 10, 11, 20, 21 and every count K, a
successful NxfFaces::from_read consumes exactly K * width(t) bytes - the
widths being 18, 24, 18, 12, 30, 24 respectively - reading exactly the K *
width(t) consecutive byte positions starting at the cursor (no inter-record
padding), and yields a collection of exactly K entries of the variant shape
matching t. -/
theorem faces_dispatch_consumes_width (t K : Nat) (d : List Nat) (p : Nat)
    (fs : NxfFaces) (p1 : Nat) (r m s : List Nat)
    (ht : t = 6 ∨ t = 8 ∨ t = 10 ∨ t = 11 ∨ t = 20 ∨ t = 21)
    (h : NxfFaces.from_read t K d p = Out.ok fs p1 r m s) :
    p1 = p + K * faceWidth t ∧ r = List.range' p (K * faceWidth t) ∧
      fs.len = K ∧ variantTag fs = t ∧
      faceWidth 6 = 18 ∧ faceWidth 8 = 24 ∧ faceWidth 10 = 18 ∧
      faceWidth 11 = 12 ∧ faceWidth 20 = 30 ∧ faceWidth 21 = 24 := by
  obtain ⟨h1, h2, _, _, h5, h6⟩ := faces_from_read_ok_inv h
  exact ⟨h1, h2, h5, h6, by decide, by decide, by decide, by decide,
    by decide, by decide⟩

/-- Witness for faces_dispatch_consumes_width: tag 11, one record, twelve
zero bytes. -/
theorem faces_dispatch_consumes_width_witness :
    12 = 0 + 1 * faceWidth 11 ∧
      List.range' 0 12 = List.range' 0 (1 * faceWidth 11) ∧
      (NxfFaces.ColUnlitTri [⟨0, 0, 0, 0, 0, 0⟩]).len = 1 ∧
      variantTag (NxfFaces.ColUnlitTri [⟨0, 0, 0, 0, 0, 0⟩]) = 11 := by
  have h := faces_dispatch_consumes_width 11 1 (List.replicate 12 0) 0
    (NxfFaces.ColUnlitTri [⟨0, 0, 0, 0, 0, 0⟩]) 12 (List.range' 0 12) [] []
    (by norm_num) (by decide)
  exact ⟨h.1, h.2.1, h.2.2.1, h.2.2.2.1⟩

/-- C8: a successful read_at_offset returns the inner step's result, run at
the given absolute offset, and leaves the cursor back at the caller's
position; likewise each of the three chain decoders restores the caller's
cursor after a successful full walk. -/
theorem cursor_restored_after_offset_reads :
    (∀ (α : Type) (off : Nat) (f : NxfM α) (d : List Nat) (p : Nat) (b : α)
        (p2 : Nat) (R M S : List Nat),
      read_at_offset off f d p = Out.ok b p2 R M S →
        p2 = p ∧ ∃ q, f d off = Out.ok b q R M S) ∧
    (∀ (fuel off : Nat) (d : List Nat) (p : Nat) (ms : List NxfMaterial)
        (p2 : Nat) (R M S : List Nat),
      NxfMaterial.list_from_read fuel off d p = Out.ok ms p2 R M S → p2 = p) ∧
    (∀ (fuel off : Nat) (d : List Nat) (p : Nat) (ls : List NxfFacelist)
        (p2 : Nat) (R M S : List Nat),
      NxfFacelist.list_from_read fuel off d p = Out.ok ls p2 R M S → p2 = p) ∧
    (∀ (inner fuel off : Nat) (d : List Nat) (p : Nat)
        (ss : List NxfFacelistSet) (p2 : Nat) (R M S : List Nat),
      NxfFacelistSet.list_from_read inner fuel off d p = Out.ok ss p2 R M S →
        p2 = p) := by
  refine ⟨?_, ?_, ?_, ?_⟩
  · intro α off f d p b p2 R M S h
    rw [read_at_offset_ok_iff] at h
    obtain ⟨q, hf, rfl⟩ := h
    exact ⟨rfl, q, hf⟩
  · intro fuel off d p ms p2 R M S h
    unfold NxfMaterial.list_from_read at h
    simp only [bind_ok_iff, tellM_ok_iff, seek_ok_iff, pure_ok_iff] at h
    obtain ⟨a, q1, r1, m1, s1, r2, m2, s2, ⟨rfl, rfl, rfl, rfl, rfl⟩,
      ⟨ms', q2, r3, m3, s3, r4, m4, s4, hloop,
        ⟨u, q3, r5, m5, s5, r6, m6, s6, ⟨rfl, rfl, rfl, rfl⟩,
          ⟨rfl, rfl, rfl, rfl, rfl⟩, _, _, _⟩, _, _, _⟩, _, _, _⟩ := h
    rfl
  · intro fuel off d p ls p2 R M S h
    unfold NxfFacelist.list_from_read at h
    simp only [bind_ok_iff, tellM_ok_iff, seek_ok_iff, pure_ok_iff] at h
    obtain ⟨a, q1, r1, m1, s1, r2, m2, s2, ⟨rfl, rfl, rfl, rfl, rfl⟩,
      ⟨ls', q2, r3, m3, s3, r4, m4, s4, hloop,
        ⟨u, q3, r5, m5, s5, r6, m6, s6, ⟨rfl, rfl, rfl, rfl⟩,
          ⟨rfl, rfl, rfl, rfl, rfl⟩, _, _, _⟩, _, _, _⟩, _, _, _⟩ := h
    rfl
  · intro inner fuel off d p ss p2 R M S h
    unfold NxfFacelistSet.list_from_read at h
    simp only [bind_ok_iff, tellM_ok_iff, seek_ok_iff, pure_ok_iff] at h
    obtain ⟨a, q1, r1, m1, s1, r2, m2, s2, ⟨rfl, rfl, rfl, rfl, rfl⟩,
      ⟨ss', q2, r3, m3, s3, r4, m4, s4, hloop,
        ⟨u, q3, r5, m5, s5, r6, m6, s6, ⟨rfl, rfl, rfl, rfl⟩,
          ⟨rfl, rfl, rfl, rfl, rfl⟩, _, _, _⟩, _, _, _⟩, _, _, _⟩ := h
    rfl

/-- Witness for cursor_restored_after_offset_reads: a one-byte read through
an offset-scoped read at offset 1 of a three-byte source, started from
cursor 0, returns the byte at offset 1 and leaves the cursor at 0. -/
theorem cursor_restored_after_offset_reads_witness :
    (0 : Nat) = 0 ∧ ∃ q, readU8 [7, 9, 11] 1 = Out.ok 9 q [1] [] [] := by
  have h := cursor_restored_after_offset_reads.1 Nat 1 readU8 [7, 9, 11] 0 9 0
    [1] [] [] (by decide)
  exact h

/- Helpers for composing a failing tail after a successful prefix. -/

theorem bind_ok_panicked {α β : Type} {m : NxfM α} {k : α → NxfM β}
    {d : List Nat} {p : Nat} {a : α} {p1 : Nat} {r1 m1 s1 : List Nat}
    (h1 : m d p = Out.ok a p1 r1 m1 s1) (h2 : k a d p1 = Out.panicked) :
    (m >>= k) d p = Out.panicked := by
  rw [bind_def]
  unfold bindM
  rw [h1]
  show (match k a d p1 with
    | Out.ok b p'' r2 m2 s2 => Out.ok b p'' (r1 ++ r2) (m1 ++ m2) (s1 ++ s2)
    | Out.ioError => Out.ioError
    | Out.panicked => Out.panicked
    | Out.diverge => Out.diverge) = Out.panicked
  rw [h2]

theorem bind_ok_diverge {α β : Type} {m : NxfM α} {k : α → NxfM β}
    {d : List Nat} {p : Nat} {a : α} {p1 : Nat} {r1 m1 s1 : List Nat}
    (h1 : m d p = Out.ok a p1 r1 m1 s1) (h2 : k a d p1 = Out.diverge) :
    (m >>= k) d p = Out.diverge := by
  rw [bind_def]
  unfold bindM
  rw [h1]
  show (match k a d p1 with
    | Out.ok b p'' r2 m2 s2 => Out.ok b p'' (r1 ++ r2) (m1 ++ m2) (s1 ++ s2)
    | Out.ioError => Out.ioError
    | Out.panicked => Out.panicked
    | Out.diverge => Out.diverge) = Out.diverge
  rw [h2]

/-- Given enough fuel (at least the bytes remaining), the read_string loop
accumulates exactly the bytes up to the first zero byte or end of input. -/
theorem readStrAux_ok (d : List Nat) :
    ∀ (n p : Nat), d.length - p ≤ n →
      ∃ q r, readStrAux n d p = Out.ok (strBytes d p) q r [] [] := by
  intro n
  induction n with
  | zero =>
    intro p hp
    refine ⟨p, [], ?_⟩
    have hd : d.drop p = [] := List.drop_eq_nil_of_le (by omega)
    rw [readStrAux, pure_def]
    unfold pureM
    simp [strBytes, hd]
  | succ k ih =>
    intro p hp
    by_cases hlt : p < d.length
    · have hnb : nextByte d p = Out.ok (some (byteAt d p)) (p + 1) [p] [] [] := by
        unfold nextByte
        rw [if_pos hlt]
      have hdrop : d.drop p = byteAt d p :: d.drop (p + 1) := by
        rw [List.drop_eq_getElem_cons hlt]
        unfold byteAt
        rw [List.getD_eq_getElem d 0 hlt]
      by_cases hz : byteAt d p = 0
      · refine ⟨p + 1, [p], ?_⟩
        have hsb : strBytes d p = [] := by
          unfold strBytes
          rw [hdrop, hz]
          simp
        rw [hsb, readStrAux, bind_ok_iff]
        refine ⟨some (byteAt d p), p + 1, [p], [], [], [], [], [], hnb, ?_,
          by simp, by simp, by simp⟩
        rw [hz]
        rfl
      · obtain ⟨b', hb'⟩ := Nat.exists_eq_succ_of_ne_zero hz
        obtain ⟨q, r, hrec⟩ := ih (p + 1) (by omega)
        refine ⟨q, [p] ++ r, ?_⟩
        have hsb : strBytes d p = byteAt d p :: strBytes d (p + 1) := by
          unfold strBytes
          rw [hdrop]
          simp [hz]
        rw [hsb, readStrAux, bind_ok_iff]
        refine ⟨some (byteAt d p), p + 1, [p], [], [], r, [], [], hnb, ?_,
          rfl, by simp, by simp⟩
        rw [hb']
        show (readStrAux k >>= fun rest => pure (Nat.succ b' :: rest)) d (p + 1) =
          Out.ok (Nat.succ b' :: strBytes d (p + 1)) q r [] []
        rw [bind_ok_iff]
        refine ⟨strBytes d (p + 1), q, r, [], [], [], [], [], hrec, ?_,
          by simp, by simp, by simp⟩
        rw [pure_ok_iff]
        exact ⟨rfl, rfl, rfl, rfl, rfl⟩
    · refine ⟨p, [], ?_⟩
      have hd : d.drop p = [] := List.drop_eq_nil_of_le (by omega)
      have hnb : nextByte d p = Out.ok none p [] [] [] := by
        unfold nextByte
        rw [if_neg hlt]
      have hsb : strBytes d p = [] := by
        unfold strBytes
        rw [hd]
        rfl
      rw [hsb, readStrAux, bind_ok_iff]
      exact ⟨none, p, [], [], [], [], [], [], hnb, rfl, by simp, by simp, by simp⟩

/-- A run of read_string either succeeds with exactly the bytes up to the
terminator (when those bytes are valid UTF-8), logging the start position
as a string decode, or panics (when they are not). -/
theorem read_string_run (d : List Nat) (p : Nat) :
    ∃ q r, read_string d p =
      if isValidUtf8 (strBytes d p) then Out.ok (strBytes d p) q r [] [p]
      else Out.panicked := by
  obtain ⟨q, r, hA⟩ := readStrAux_ok d (d.length - p) p (le_refl _)
  refine ⟨q, r, ?_⟩
  unfold read_string
  by_cases hv : isValidUtf8 (strBytes d p)
  · rw [if_pos hv, bind_ok_iff]
    refine ⟨p, p, [], [], [], r, [], [p], rfl, ?_, by simp, by simp, by simp⟩
    rw [bind_ok_iff]
    refine ⟨(), p, [], [], [p], r, [], [], rfl, ?_, by simp, by simp, by simp⟩
    rw [bind_ok_iff]
    refine ⟨strBytes d p, q, r, [], [], [], [], [], hA, ?_, by simp, by simp,
      by simp⟩
    rw [if_pos hv, pure_ok_iff]
    exact ⟨rfl, rfl, rfl, rfl, rfl⟩
  · rw [if_neg hv]
    refine bind_ok_panicked
      (show tellM d p = Out.ok p p [] [] [] from rfl) ?_
    refine bind_ok_panicked
      (show logStr p d p = Out.ok () p [] [] [p] from rfl) ?_
    refine bind_ok_panicked hA ?_
    rw [if_neg hv]
    rfl

/-- A successful read_string returns exactly the bytes up to the
terminator, decodes no material, and logs exactly its start position as a
string decode. -/
theorem read_string_ok_inv {d : List Nat} {p : Nat} {v : List Nat} {q : Nat}
    {r m s : List Nat} (h : read_string d p = Out.ok v q r m s) :
    v = strBytes d p ∧ m = [] ∧ s = [p] := by
  obtain ⟨q', r', hrun⟩ := read_string_run d p
  rw [hrun] at h
  by_cases hv : isValidUtf8 (strBytes d p)
  · rw [if_pos hv] at h
    injection h with h1 h2 h3 h4 h5
    exact ⟨h1.symm, h4.symm, h5.symm⟩
  · rw [if_neg hv] at h
    exact absurd h (by simp)

/-- C5 (amended): when the accumulated string region holds malformed
(non-UTF-8) bytes before the terminator, read_string aborts the process
with a panic (the unwrap on String::from_utf8 in the Rust source); it does
not return an error value to its caller, and it does not succeed. -/
theorem read_string_invalid_utf8_panics (d : List Nat) (p : Nat)
    (h : isValidUtf8 (strBytes d p) = false) :
    read_string d p = Out.panicked := by
  obtain ⟨q, r, hrun⟩ := read_string_run d p
  rw [hrun, if_neg (by simp [h])]

/-- Witness for read_string_invalid_utf8_panics: the byte 255 before the
terminator is not valid UTF-8. -/
theorem read_string_invalid_utf8_panics_witness :
    read_string [255, 0] 0 = Out.panicked :=
  read_string_invalid_utf8_panics [255, 0] 0 (by decide)

/-- C5 counterexample to the claim as stated: on the malformed string
region 255, 66 before the null terminator, read_string panics (process
abort) instead of returning an error value to the caller. -/
theorem read_string_invalid_no_error_value_counterexample :
    strBytes [255, 66, 0] 0 = [255, 66] ∧
      isValidUtf8 [255, 66] = false ∧
      read_string [255, 66, 0] 0 = Out.panicked ∧
      read_string [255, 66, 0] 0 ≠ Out.ioError := by
  exact ⟨by decide, by decide, by decide, by decide⟩

/-- C10 (amended): when the source ends before a null terminator is found,
read_string treats end of input as the string terminator and returns Ok
with the bytes accumulated up to end of input - provided those bytes are
valid UTF-8 (otherwise the unwrap on String::from_utf8 panics). -/
theorem read_string_eof_is_terminator (d : List Nat) (p : Nat)
    (hnz : ∀ b ∈ d.drop p, b ≠ 0) (hv : isValidUtf8 (d.drop p) = true) :
    ∃ q r, read_string d p = Out.ok (d.drop p) q r [] [p] := by
  have hsb : strBytes d p = d.drop p := by
    unfold strBytes
    refine List.takeWhile_eq_self_iff.mpr ?_
    intro x hx
    simpa using hnz x hx
  obtain ⟨q, r, hrun⟩ := read_string_run d p
  rw [hsb] at hrun
  exact ⟨q, r, by rw [hrun, if_pos hv]⟩

/-- Witness for read_string_eof_is_terminator: the two bytes 65, 66 with no
terminator decode to the text AB. -/
theorem read_string_eof_is_terminator_witness :
    ∃ q r, read_string [65, 66] 0 = Out.ok [65, 66] q r [] [0] := by
  simpa using read_string_eof_is_terminator [65, 66] 0 (by decide) (by decide)

/-- C10 counterexample to the claim as stated: the source 255 ends before
any null terminator, yet read_string does not return Ok with the
accumulated bytes - it panics on the invalid UTF-8 accumulation. -/
theorem read_string_eof_not_always_ok_counterexample :
    (∀ b ∈ ([255] : List Nat), b ≠ 0) ∧
      read_string [255] 0 = Out.panicked ∧
      isOkB (read_string [255] 0) = false := by
  exact ⟨by decide, by decide, by decide⟩

set_option maxRecDepth 8000 in
/-- Inversion of a successful NxfMaterial::from_read run: the decode logs
exactly one material decode, at its own start position; it consumes the 40
record bytes, ending at p + 40; the texture name is read from the string
region at the offset stored at p + 8, unconditionally - even when that
offset is 0; and exactly one string decode is logged, at that offset. -/
theorem material_from_read_inv {d : List Nat} {p : Nat} {mat : NxfMaterial}
    {p1 : Nat} {r m s : List Nat}
    (h : NxfMaterial.from_read d p = Out.ok mat p1 r m s) :
    m = [p] ∧ p1 = p + 40 ∧
      mat.tex_name = strBytes d (get32 d (p + 8)) ∧
      s = [get32 d (p + 8)] ∧
      matAt d p = some mat := by
  have hmatAt : matAt d p = some mat := by
    unfold matAt
    rw [h]
    rfl
  unfold NxfMaterial.from_read at h
  simp only [bind_ok_iff, tellM_ok_iff, logMat_ok_iff, readU32_ok_iff,
    readU8_ok_iff, read_at_offset_ok_iff, pure_ok_iff] at h
  obtain ⟨a0, q0, r0, m0, s0, r0', m0', s0', ⟨rfl, rfl, rfl, rfl, rfl⟩, h,
    rfl, rfl, rfl⟩ := h
  obtain ⟨u1, q1, r1, m1, s1, r1', m1', s1', ⟨rfl, rfl, rfl, rfl⟩, h,
    rfl, rfl, rfl⟩ := h
  obtain ⟨v2, q2, r2, m2, s2, r2', m2', s2', ⟨hb2, rfl, rfl, rfl, rfl, rfl⟩,
    h, rfl, rfl, rfl⟩ := h
  obtain ⟨v3, q3, r3, m3, s3, r3', m3', s3', ⟨hb3, rfl, rfl, rfl, rfl, rfl⟩,
    h, rfl, rfl, rfl⟩ := h
  obtain ⟨v4, q4, r4, m4, s4, r4', m4', s4', ⟨hb4, rfl, rfl, rfl, rfl, rfl⟩,
    h, rfl, rfl, rfl⟩ := h
  obtain ⟨tname, q5, r5, m5, s5, r5', m5', s5', ⟨qq, hstr, rfl⟩, h,
    rfl, rfl, rfl⟩ := h
  obtain ⟨hv, hm5, hs5⟩ := read_string_ok_inv hstr
  obtain ⟨v6, q6, r6, m6, s6, r6', m6', s6', ⟨hb6, rfl, rfl, rfl, rfl, rfl⟩,
    h, rfl, rfl, rfl⟩ := h
  obtain ⟨v7, q7, r7, m7, s7, r7', m7', s7', ⟨hb7, rfl, rfl, rfl, rfl, rfl⟩,
    h, rfl, rfl, rfl⟩ := h
  obtain ⟨v8, q8, r8, m8, s8, r8', m8', s8', ⟨hb8, rfl, rfl, rfl, rfl, rfl⟩,
    h, rfl, rfl, rfl⟩ := h
  obtain ⟨v9, q9, r9, m9, s9, r9', m9', s9', ⟨hb9, rfl, rfl, rfl, rfl, rfl⟩,
    h, rfl, rfl, rfl⟩ := h
  obtain ⟨v10, q10, r10, m10, s10, r10', m10', s10',
    ⟨hb10, rfl, rfl, rfl, rfl, rfl⟩, h, rfl, rfl, rfl⟩ := h
  obtain ⟨v11, q11, r11, m11, s11, r11', m11', s11',
    ⟨hb11, rfl, rfl, rfl, rfl, rfl⟩, h, rfl, rfl, rfl⟩ := h
  obtain ⟨v12, q12, r12, m12, s12, r12', m12', s12',
    ⟨hb12, rfl, rfl, rfl, rfl, rfl⟩, h, rfl, rfl, rfl⟩ := h
  obtain ⟨v13, q13, r13, m13, s13, r13', m13', s13',
    ⟨hb13, rfl, rfl, rfl, rfl, rfl⟩, h, rfl, rfl, rfl⟩ := h
  obtain ⟨v14, q14, r14, m14, s14, r14', m14', s14',
    ⟨hb14, rfl, rfl, rfl, rfl, rfl⟩, h, rfl, rfl, rfl⟩ := h
  obtain ⟨v15, q15, r15, m15, s15, r15', m15', s15',
    ⟨hb15, rfl, rfl, rfl, rfl, rfl⟩, ⟨hmat, rfl, rfl, rfl, rfl⟩,
    rfl, rfl, rfl⟩ := h
  subst hmat
  refine ⟨by simp [hm5], by omega, ?_, by simp [hs5], hmatAt⟩
  simp [hv]

set_option maxRecDepth 8000 in
/-- Inversion of a successful NxfFacelist::from_read run: exactly one
material decode is logged, at the material offset stored at p + 8 - the
offset is dereferenced unconditionally, 0 included - and the facelist's
material is the value the pure material decode produces at that offset.
The stored next-record offset sits at p + 20 and the record ends at
p + 32. -/
theorem facelist_from_read_inv {d : List Nat} {p : Nat} {fl : NxfFacelist}
    {p1 : Nat} {r m s : List Nat}
    (h : NxfFacelist.from_read d p = Out.ok fl p1 r m s) :
    m = [get32 d (p + 8)] ∧
      matAt d (get32 d (p + 8)) = some fl.material ∧
      fl.next_facelist = get32 d (p + 20) ∧ p1 = p + 32 := by
  unfold NxfFacelist.from_read at h
  simp only [bind_ok_iff, readU16_ok_iff, readU8_ok_iff, readU32_ok_iff,
    read_at_offset_ok_iff, pure_ok_iff] at h
  obtain ⟨v0, q0, r0, m0, s0, r0', m0', s0', ⟨hb0, rfl, rfl, rfl, rfl, rfl⟩,
    h, rfl, rfl, rfl⟩ := h
  obtain ⟨v1, q1, r1, m1, s1, r1', m1', s1', ⟨hb1, rfl, rfl, rfl, rfl, rfl⟩,
    h, rfl, rfl, rfl⟩ := h
  obtain ⟨v2, q2, r2, m2, s2, r2', m2', s2', ⟨hb2, rfl, rfl, rfl, rfl, rfl⟩,
    h, rfl, rfl, rfl⟩ := h
  obtain ⟨v3, q3, r3, m3, s3, r3', m3', s3', ⟨hb3, rfl, rfl, rfl, rfl, rfl⟩,
    h, rfl, rfl, rfl⟩ := h
  obtain ⟨v4, q4, r4, m4, s4, r4', m4', s4', ⟨hb4, rfl, rfl, rfl, rfl, rfl⟩,
    h, rfl, rfl, rfl⟩ := h
  obtain ⟨mat, q5, r5, m5, s5, r5', m5', s5', ⟨qq, hmatrun, rfl⟩, h,
    rfl, rfl, rfl⟩ := h
  obtain ⟨hm5, hq5, htex, hs5, hmatAt⟩ := material_from_read_inv hmatrun
  obtain ⟨v6, q6, r6, m6, s6, r6', m6', s6', ⟨hb6, rfl, rfl, rfl, rfl, rfl⟩,
    h, rfl, rfl, rfl⟩ := h
  obtain ⟨v7, q7, r7, m7, s7, r7', m7', s7', ⟨hb7, rfl, rfl, rfl, rfl, rfl⟩,
    h, rfl, rfl, rfl⟩ := h
  obtain ⟨fcs, q8, r8, m8, s8, r8', m8', s8', ⟨qq2, hfcs, rfl⟩, h,
    rfl, rfl, rfl⟩ := h
  obtain ⟨hq8, hr8, hm8, hs8, hlen, htag⟩ := faces_from_read_ok_inv hfcs
  obtain ⟨v9, q9, r9, m9, s9, r9', m9', s9', ⟨hb9, rfl, rfl, rfl, rfl, rfl⟩,
    h, rfl, rfl, rfl⟩ := h
  obtain ⟨v10, q10, r10, m10, s10, r10', m10', s10',
    ⟨hb10, rfl, rfl, rfl, rfl, rfl⟩, h, rfl, rfl, rfl⟩ := h
  obtain ⟨v11, q11, r11, m11, s11, r11', m11', s11',
    ⟨hb11, rfl, rfl, rfl, rfl, rfl⟩, ⟨hfl, rfl, rfl, rfl, rfl⟩,
    rfl, rfl, rfl⟩ := h
  subst hfl
  have e8 : p + 2 + 1 + 1 + 4 = p + 8 := by omega
  have e20 : p + 2 + 1 + 1 + 4 + 4 + 4 + 4 = p + 20 := by omega
  rw [e8] at hm5 hmatAt
  refine ⟨by simp [hm5, hm8], by simpa using hmatAt, ?_, by omega⟩
  show get32 d (p + 2 + 1 + 1 + 4 + 4 + 4 + 4) = get32 d (p + 20)
  rw [e20]

/-- Inversion of the facelist chain loop: a successful walk logs exactly
one material decode per facelist, in chain order, and each facelist's
material is the value the pure material decode produces at the logged
offset. -/
theorem flListLoop_inv :
    ∀ (fuel off : Nat) (d : List Nat) (p : Nat) (fls : List NxfFacelist)
      (p2 : Nat) (R M S : List Nat),
      flListLoop fuel off d p = Out.ok fls p2 R M S →
        M.length = fls.length ∧
        ∀ pr ∈ M.zip fls, matAt d pr.1 = some pr.2.material := by
  intro fuel
  induction fuel with
  | zero =>
    intro off d p fls p2 R M S h
    unfold flListLoop at h
    by_cases hoff : off = 0
    · rw [if_pos hoff, pure_ok_iff] at h
      obtain ⟨rfl, _, rfl, rfl, _⟩ := h
      simp
    · rw [if_neg hoff] at h
      exact absurd h (by simp [divergeM])
  | succ k ih =>
    intro off d p fls p2 R M S h
    unfold flListLoop at h
    by_cases hoff : off = 0
    · rw [if_pos hoff, pure_ok_iff] at h
      obtain ⟨rfl, _, rfl, rfl, _⟩ := h
      simp
    · rw [if_neg hoff] at h
      simp only [bind_ok_iff, seek_ok_iff, pure_ok_iff] at h
      obtain ⟨u0, q0, r0, m0, s0, r0', m0', s0', ⟨rfl, rfl, rfl, rfl⟩, h,
        rfl, rfl, rfl⟩ := h
      obtain ⟨fl, q1, r1, m1, s1, r1', m1', s1', hfl, h, rfl, rfl, rfl⟩ := h
      obtain ⟨rest, q2, r2, m2, s2, r2', m2', s2', hrec,
        ⟨rfl, rfl, rfl, rfl, rfl⟩, rfl, rfl, rfl⟩ := h
      obtain ⟨hm1, hmatAt, hnext, hq1⟩ := facelist_from_read_inv hfl
      obtain ⟨hlen, hzip⟩ := ih fl.next_facelist d q1 rest p2 r2 m2 s2 hrec
      subst hm1
      refine ⟨by simp [hlen], ?_⟩
      intro pr hpr
      simp only [List.nil_append, List.append_nil, List.cons_append,
        List.zip_cons_cons, List.mem_cons] at hpr
      rcases hpr with hpr | hpr
      · subst hpr
        exact hmatAt
      · exact hzip pr hpr

/-- Inversion of one string-table slot: the slot's stored offset is
dereferenced (0 included), one string decode is logged at that offset, and
the slot's value is the pure string decode at that offset. -/
theorem stringSlot_inv {d : List Nat} {p : Nat} {v : List Nat} {p1 : Nat}
    {r m s : List Nat} (h : stringSlot d p = Out.ok v p1 r m s) :
    s = [get32 d p] ∧ strAt d (get32 d p) = some v := by
  unfold stringSlot at h
  simp only [bind_ok_iff, readU32_ok_iff] at h
  obtain ⟨off, q0, r0, m0, s0, r0', m0', s0', ⟨hb, rfl, rfl, rfl, rfl, rfl⟩,
    h, rfl, rfl, rfl⟩ := h
  rw [read_at_offset_ok_iff] at h
  obtain ⟨q, hstr, rfl⟩ := h
  have hAt : strAt d (get32 d p) = some v := by
    unfold strAt
    rw [hstr]
    rfl
  obtain ⟨hv, hm, hs⟩ := read_string_ok_inv hstr
  exact ⟨by simp [hs], hAt⟩

/-- Inversion of the string-table reader: one string decode is logged per
slot, in slot order, each at the offset that slot stores, and the decoded
strings are the pure string decodes at those offsets. -/
theorem readStringTable_inv :
    ∀ (n : Nat) (d : List Nat) (p : Nat) (vs : List (List Nat)) (p2 : Nat)
      (R M S : List Nat),
      readStringTable n d p = Out.ok vs p2 R M S →
        S.length = vs.length ∧ ∀ pr ∈ S.zip vs, strAt d pr.1 = some pr.2 := by
  intro n
  induction n with
  | zero =>
    intro d p vs p2 R M S h
    unfold readStringTable readN at h
    rw [pure_ok_iff] at h
    obtain ⟨rfl, _, _, _, rfl⟩ := h
    simp
  | succ k ih =>
    intro d p vs p2 R M S h
    unfold readStringTable readN at h
    simp only [bind_ok_iff, pure_ok_iff] at h
    obtain ⟨v, q0, r0, m0, s0, r0', m0', s0', hslot, h, rfl, rfl, rfl⟩ := h
    obtain ⟨rest, q1, r1, m1, s1, r1', m1', s1', hrec,
      ⟨rfl, rfl, rfl, rfl, rfl⟩, rfl, rfl, rfl⟩ := h
    obtain ⟨hs0, hAt⟩ := stringSlot_inv hslot
    obtain ⟨hlen, hzip⟩ := ih d q0 rest p2 r1 m1 s1 hrec
    subst hs0
    refine ⟨by simp [hlen], ?_⟩
    intro pr hpr
    simp only [List.nil_append, List.append_nil, List.cons_append,
      List.zip_cons_cons, List.mem_cons] at hpr
    rcases hpr with hpr | hpr
    · subst hpr
      exact hAt
    · exact hzip pr hpr

/-- C1 (amended): the decoder has no offset-keyed cache.  Within one decode
session, every facelist in a facelist chain triggers its own material
decode at the material offset it stores - exactly one material decode per
facelist, not at most one per distinct offset - and each facelist owns an
independently decoded copy whose value is the pure material decode at that
offset, so two facelists storing the identical material offset hold equal,
but separately decoded, material values.  Likewise every string-table slot
triggers its own string decode at the offset it stores, and two slots
pointing at the same offset hold equal, but separately decoded, strings. -/
theorem no_memoization_one_decode_per_reference :
    (∀ (fuel off : Nat) (d : List Nat) (p : Nat) (fls : List NxfFacelist)
        (p2 : Nat) (R M S : List Nat),
      NxfFacelist.list_from_read fuel off d p = Out.ok fls p2 R M S →
        M.length = fls.length ∧
        (∀ pr ∈ M.zip fls, matAt d pr.1 = some pr.2.material) ∧
        (∀ pr qr, pr ∈ M.zip fls → qr ∈ M.zip fls → pr.1 = qr.1 →
          pr.2.material = qr.2.material)) ∧
    (∀ (n : Nat) (d : List Nat) (p : Nat) (vs : List (List Nat)) (p2 : Nat)
        (R M S : List Nat),
      readStringTable n d p = Out.ok vs p2 R M S →
        S.length = vs.length ∧
        (∀ pr ∈ S.zip vs, strAt d pr.1 = some pr.2) ∧
        (∀ pr qr, pr ∈ S.zip vs → qr ∈ S.zip vs → pr.1 = qr.1 →
          pr.2 = qr.2)) := by
  constructor
  · intro fuel off d p fls p2 R M S h
    unfold NxfFacelist.list_from_read at h
    simp only [bind_ok_iff, tellM_ok_iff, seek_ok_iff, pure_ok_iff] at h
    obtain ⟨a, q0, r0, m0, s0, r0', m0', s0', ⟨rfl, rfl, rfl, rfl, rfl⟩, h,
      rfl, rfl, rfl⟩ := h
    obtain ⟨fls', q1, r1, m1, s1, r1', m1', s1', hloop, h, rfl, rfl, rfl⟩ := h
    obtain ⟨u, q2, r2, m2, s2, r2', m2', s2', ⟨rfl, rfl, rfl, rfl⟩,
      ⟨rfl, rfl, rfl, rfl, rfl⟩, rfl, rfl, rfl⟩ := h
    obtain ⟨hlen, hzip⟩ := flListLoop_inv fuel off d p2 fls q1 r1 m1 s1 hloop
    refine ⟨by simp [hlen], ?_, ?_⟩
    · intro pr hpr
      exact hzip pr (by simpa using hpr)
    · intro pr qr hpr hqr he
      have h1 := hzip pr (by simpa using hpr)
      have h2 := hzip qr (by simpa using hqr)
      rw [he] at h1
      rw [h1] at h2
      exact Option.some.inj h2
  · intro n d p vs p2 R M S h
    obtain ⟨hlen, hzip⟩ := readStringTable_inv n d p vs p2 R M S h
    refine ⟨hlen, hzip, ?_⟩
    intro pr qr hpr hqr he
    have h1 := hzip pr hpr
    have h2 := hzip qr hqr
    rw [he] at h1
    rw [h1] at h2
    exact Option.some.inj h2

theorem bind_diverge_left {α β : Type} {m : NxfM α} {k : α → NxfM β}
    {d : List Nat} {p : Nat} (h : m d p = Out.diverge) :
    (m >>= k) d p = Out.diverge := by
  rw [bind_def]
  unfold bindM
  rw [h]

/-- A material chain on the source: each record decodes at its own offset,
a bare next offset is read right after the record, and the chain ends at
the 0 sentinel.  The records are listed in file-chain order. -/
inductive MatChain (d : List Nat) : Nat → List NxfMaterial → Prop where
  | nil : MatChain d 0 []
  | cons {off : Nat} {mat : NxfMaterial} {q1 : Nat} {r1 m1 s1 : List Nat}
      {nxt q2 : Nat} {r2 m2 s2 : List Nat} {ms : List NxfMaterial} :
      off ≠ 0 →
      NxfMaterial.from_read d off = Out.ok mat q1 r1 m1 s1 →
      readU32 d q1 = Out.ok nxt q2 r2 m2 s2 →
      MatChain d nxt ms →
      MatChain d off (mat :: ms)

/-- A facelist chain on the source: the next offset is the next_facelist
field stored inside each record. -/
inductive FlChain (d : List Nat) : Nat → List NxfFacelist → Prop where
  | nil : FlChain d 0 []
  | cons {off : Nat} {fl : NxfFacelist} {q1 : Nat} {r1 m1 s1 : List Nat}
      {fls : List NxfFacelist} :
      off ≠ 0 →
      NxfFacelist.from_read d off = Out.ok fl q1 r1 m1 s1 →
      FlChain d fl.next_facelist fls →
      FlChain d off (fl :: fls)

/-- A facelist-set chain on the source (inner is the fuel handed to each
record's own facelist chain): a bare next offset is read right after each
record. -/
inductive FlsChain (d : List Nat) (inner : Nat) :
    Nat → List NxfFacelistSet → Prop where
  | nil : FlsChain d inner 0 []
  | cons {off : Nat} {st : NxfFacelistSet} {q1 : Nat} {r1 m1 s1 : List Nat}
      {nxt q2 : Nat} {r2 m2 s2 : List Nat} {sts : List NxfFacelistSet} :
      off ≠ 0 →
      NxfFacelistSet.from_read inner d off = Out.ok st q1 r1 m1 s1 →
      readU32 d q1 = Out.ok nxt q2 r2 m2 s2 →
      FlsChain d inner nxt sts →
      FlsChain d inner off (st :: sts)

theorem matListLoop_of_chain {d : List Nat} {off : Nat} {ms : List NxfMaterial}
    (hc : MatChain d off ms) :
    ∀ fuel, ms.length ≤ fuel → ∀ p, ∃ q R M S,
      matListLoop fuel off d p = Out.ok ms q R M S := by
  induction hc with
  | nil =>
    intro fuel _ p
    refine ⟨p, [], [], [], ?_⟩
    unfold matListLoop
    rw [if_pos rfl]
    rfl
  | @cons off1 mat1 q1 r1 m1 s1 nxt q2 r2 m2 s2 ms1 hoff hmat hnxt hrest ih =>
    intro fuel hlen p
    match fuel with
    | 0 => simp at hlen
    | f + 1 =>
      obtain ⟨q, R, M, S, hrec⟩ := ih f (by simpa using hlen) q2
      refine ⟨q, [] ++ (r1 ++ (r2 ++ (R ++ []))), [] ++ (m1 ++ (m2 ++ (M ++ []))),
        [] ++ (s1 ++ (s2 ++ (S ++ []))), ?_⟩
      unfold matListLoop
      rw [if_neg hoff, bind_ok_iff]
      refine ⟨(), off1, [], [], [], r1 ++ (r2 ++ (R ++ [])),
        m1 ++ (m2 ++ (M ++ [])), s1 ++ (s2 ++ (S ++ [])),
        by rw [seek_ok_iff]; exact ⟨rfl, rfl, rfl, rfl⟩, ?_, rfl, rfl, rfl⟩
      rw [bind_ok_iff]
      refine ⟨mat1, q1, r1, m1, s1, r2 ++ (R ++ []), m2 ++ (M ++ []),
        s2 ++ (S ++ []), hmat, ?_, rfl, rfl, rfl⟩
      rw [bind_ok_iff]
      refine ⟨nxt, q2, r2, m2, s2, R ++ [], M ++ [], S ++ [], hnxt, ?_,
        rfl, rfl, rfl⟩
      rw [bind_ok_iff]
      refine ⟨ms1, q, R, M, S, [], [], [], hrec, ?_, rfl, rfl, rfl⟩
      rw [pure_ok_iff]
      exact ⟨rfl, rfl, rfl, rfl, rfl⟩

theorem flListLoop_of_chain {d : List Nat} {off : Nat} {fls : List NxfFacelist}
    (hc : FlChain d off fls) :
    ∀ fuel, fls.length ≤ fuel → ∀ p, ∃ q R M S,
      flListLoop fuel off d p = Out.ok fls q R M S := by
  induction hc with
  | nil =>
    intro fuel _ p
    refine ⟨p, [], [], [], ?_⟩
    unfold flListLoop
    rw [if_pos rfl]
    rfl
  | @cons off1 fl1 q1 r1 m1 s1 fls1 hoff hfl hrest ih =>
    intro fuel hlen p
    match fuel with
    | 0 => simp at hlen
    | f + 1 =>
      obtain ⟨q, R, M, S, hrec⟩ := ih f (by simpa using hlen) q1
      refine ⟨q, [] ++ (r1 ++ (R ++ [])), [] ++ (m1 ++ (M ++ [])),
        [] ++ (s1 ++ (S ++ [])), ?_⟩
      unfold flListLoop
      rw [if_neg hoff, bind_ok_iff]
      refine ⟨(), off1, [], [], [], r1 ++ (R ++ []), m1 ++ (M ++ []),
        s1 ++ (S ++ []), by rw [seek_ok_iff]; exact ⟨rfl, rfl, rfl, rfl⟩, ?_,
        rfl, rfl, rfl⟩
      rw [bind_ok_iff]
      refine ⟨fl1, q1, r1, m1, s1, R ++ [], M ++ [], S ++ [], hfl, ?_,
        rfl, rfl, rfl⟩
      rw [bind_ok_iff]
      refine ⟨fls1, q, R, M, S, [], [], [], hrec, ?_, rfl, rfl, rfl⟩
      rw [pure_ok_iff]
      exact ⟨rfl, rfl, rfl, rfl, rfl⟩

theorem flsListLoop_of_chain {d : List Nat} {inner off : Nat}
    {sts : List NxfFacelistSet} (hc : FlsChain d inner off sts) :
    ∀ fuel, sts.length ≤ fuel → ∀ p, ∃ q R M S,
      flsListLoop inner fuel off d p = Out.ok sts q R M S := by
  induction hc with
  | nil =>
    intro fuel _ p
    refine ⟨p, [], [], [], ?_⟩
    unfold flsListLoop
    rw [if_pos rfl]
    rfl
  | @cons off1 st1 q1 r1 m1 s1 nxt q2 r2 m2 s2 sts1 hoff hst hnxt hrest ih =>
    intro fuel hlen p
    match fuel with
    | 0 => simp at hlen
    | f + 1 =>
      obtain ⟨q, R, M, S, hrec⟩ := ih f (by simpa using hlen) q2
      refine ⟨q, [] ++ (r1 ++ (r2 ++ (R ++ []))), [] ++ (m1 ++ (m2 ++ (M ++ []))),
        [] ++ (s1 ++ (s2 ++ (S ++ []))), ?_⟩
      unfold flsListLoop
      rw [if_neg hoff, bind_ok_iff]
      refine ⟨(), off1, [], [], [], r1 ++ (r2 ++ (R ++ [])),
        m1 ++ (m2 ++ (M ++ [])), s1 ++ (s2 ++ (S ++ [])),
        by rw [seek_ok_iff]; exact ⟨rfl, rfl, rfl, rfl⟩, ?_, rfl, rfl, rfl⟩
      rw [bind_ok_iff]
      refine ⟨st1, q1, r1, m1, s1, r2 ++ (R ++ []), m2 ++ (M ++ []),
        s2 ++ (S ++ []), hst, ?_, rfl, rfl, rfl⟩
      rw [bind_ok_iff]
      refine ⟨nxt, q2, r2, m2, s2, R ++ [], M ++ [], S ++ [], hnxt, ?_,
        rfl, rfl, rfl⟩
      rw [bind_ok_iff]
      refine ⟨sts1, q, R, M, S, [], [], [], hrec, ?_, rfl, rfl, rfl⟩
      rw [pure_ok_iff]
      exact ⟨rfl, rfl, rfl, rfl, rfl⟩

/-- C4: a chain of N records whose next offsets end in the 0 sentinel
decodes to exactly those N records in file-chain order (given loop fuel of
at least N), with the caller's cursor restored; and a chain whose start
offset is already 0 decodes to the empty sequence without reading any byte
(all three logs empty - nothing is read at offset 0). -/
theorem chain_decode_exact_length :
    (∀ (d : List Nat) (off : Nat) (ms : List NxfMaterial), MatChain d off ms →
      ∀ fuel, ms.length ≤ fuel → ∀ p, ∃ R M S,
        NxfMaterial.list_from_read fuel off d p = Out.ok ms p R M S) ∧
    (∀ (d : List Nat) (off : Nat) (fls : List NxfFacelist), FlChain d off fls →
      ∀ fuel, fls.length ≤ fuel → ∀ p, ∃ R M S,
        NxfFacelist.list_from_read fuel off d p = Out.ok fls p R M S) ∧
    (∀ (d : List Nat) (inner off : Nat) (sts : List NxfFacelistSet),
      FlsChain d inner off sts → ∀ fuel, sts.length ≤ fuel → ∀ p, ∃ R M S,
        NxfFacelistSet.list_from_read inner fuel off d p = Out.ok sts p R M S) ∧
    (∀ (fuel : Nat) (d : List Nat) (p : Nat),
      NxfMaterial.list_from_read fuel 0 d p = Out.ok [] p [] [] []) ∧
    (∀ (fuel : Nat) (d : List Nat) (p : Nat),
      NxfFacelist.list_from_read fuel 0 d p = Out.ok [] p [] [] []) ∧
    (∀ (inner fuel : Nat) (d : List Nat) (p : Nat),
      NxfFacelistSet.list_from_read inner fuel 0 d p = Out.ok [] p [] [] []) := by
  refine ⟨?_, ?_, ?_, ?_, ?_, ?_⟩
  · intro d off ms hc fuel hf p
    obtain ⟨q, R, M, S, hloop⟩ := matListLoop_of_chain hc fuel hf p
    refine ⟨[] ++ (R ++ ([] ++ [])), [] ++ (M ++ ([] ++ [])),
      [] ++ (S ++ ([] ++ [])), ?_⟩
    unfold NxfMaterial.list_from_read
    rw [bind_ok_iff]
    refine ⟨p, p, [], [], [], R ++ ([] ++ []), M ++ ([] ++ []),
      S ++ ([] ++ []), by rw [tellM_ok_iff]; exact ⟨rfl, rfl, rfl, rfl, rfl⟩,
      ?_, rfl, rfl, rfl⟩
    rw [bind_ok_iff]
    refine ⟨ms, q, R, M, S, [] ++ [], [] ++ [], [] ++ [], hloop, ?_,
      rfl, rfl, rfl⟩
    rw [bind_ok_iff]
    refine ⟨(), p, [], [], [], [], [], [],
      by rw [seek_ok_iff]; exact ⟨rfl, rfl, rfl, rfl⟩, ?_, rfl, rfl, rfl⟩
    rw [pure_ok_iff]
    exact ⟨rfl, rfl, rfl, rfl, rfl⟩
  · intro d off fls hc fuel hf p
    obtain ⟨q, R, M, S, hloop⟩ := flListLoop_of_chain hc fuel hf p
    refine ⟨[] ++ (R ++ ([] ++ [])), [] ++ (M ++ ([] ++ [])),
      [] ++ (S ++ ([] ++ [])), ?_⟩
    unfold NxfFacelist.list_from_read
    rw [bind_ok_iff]
    refine ⟨p, p, [], [], [], R ++ ([] ++ []), M ++ ([] ++ []),
      S ++ ([] ++ []), by rw [tellM_ok_iff]; exact ⟨rfl, rfl, rfl, rfl, rfl⟩,
      ?_, rfl, rfl, rfl⟩
    rw [bind_ok_iff]
    refine ⟨fls, q, R, M, S, [] ++ [], [] ++ [], [] ++ [], hloop, ?_,
      rfl, rfl, rfl⟩
    rw [bind_ok_iff]
    refine ⟨(), p, [], [], [], [], [], [],
      by rw [seek_ok_iff]; exact ⟨rfl, rfl, rfl, rfl⟩, ?_, rfl, rfl, rfl⟩
    rw [pure_ok_iff]
    exact ⟨rfl, rfl, rfl, rfl, rfl⟩
  · intro d inner off sts hc fuel hf p
    obtain ⟨q, R, M, S, hloop⟩ := flsListLoop_of_chain hc fuel hf p
    refine ⟨[] ++ (R ++ ([] ++ [])), [] ++ (M ++ ([] ++ [])),
      [] ++ (S ++ ([] ++ [])), ?_⟩
    unfold NxfFacelistSet.list_from_read
    rw [bind_ok_iff]
    refine ⟨p, p, [], [], [], R ++ ([] ++ []), M ++ ([] ++ []),
      S ++ ([] ++ []), by rw [tellM_ok_iff]; exact ⟨rfl, rfl, rfl, rfl, rfl⟩,
      ?_, rfl, rfl, rfl⟩
    rw [bind_ok_iff]
    refine ⟨sts, q, R, M, S, [] ++ [], [] ++ [], [] ++ [], hloop, ?_,
      rfl, rfl, rfl⟩
    rw [bind_ok_iff]
    refine ⟨(), p, [], [], [], [], [], [],
      by rw [seek_ok_iff]; exact ⟨rfl, rfl, rfl, rfl⟩, ?_, rfl, rfl, rfl⟩
    rw [pure_ok_iff]
    exact ⟨rfl, rfl, rfl, rfl, rfl⟩
  · intro fuel d p
    unfold NxfMaterial.list_from_read
    rw [bind_ok_iff]
    refine ⟨p, p, [], [], [], [], [], [],
      by rw [tellM_ok_iff]; exact ⟨rfl, rfl, rfl, rfl, rfl⟩, ?_, rfl, rfl, rfl⟩
    rw [bind_ok_iff]
    refine ⟨[], p, [], [], [], [], [], [], ?_, ?_, rfl, rfl, rfl⟩
    · unfold matListLoop
      rw [if_pos rfl]
      rfl
    · rw [bind_ok_iff]
      refine ⟨(), p, [], [], [], [], [], [],
        by rw [seek_ok_iff]; exact ⟨rfl, rfl, rfl, rfl⟩, ?_, rfl, rfl, rfl⟩
      rw [pure_ok_iff]
      exact ⟨rfl, rfl, rfl, rfl, rfl⟩
  · intro fuel d p
    unfold NxfFacelist.list_from_read
    rw [bind_ok_iff]
    refine ⟨p, p, [], [], [], [], [], [],
      by rw [tellM_ok_iff]; exact ⟨rfl, rfl, rfl, rfl, rfl⟩, ?_, rfl, rfl, rfl⟩
    rw [bind_ok_iff]
    refine ⟨[], p, [], [], [], [], [], [], ?_, ?_, rfl, rfl, rfl⟩
    · unfold flListLoop
      rw [if_pos rfl]
      rfl
    · rw [bind_ok_iff]
      refine ⟨(), p, [], [], [], [], [], [],
        by rw [seek_ok_iff]; exact ⟨rfl, rfl, rfl, rfl⟩, ?_, rfl, rfl, rfl⟩
      rw [pure_ok_iff]
      exact ⟨rfl, rfl, rfl, rfl, rfl⟩
  · intro inner fuel d p
    unfold NxfFacelistSet.list_from_read
    rw [bind_ok_iff]
    refine ⟨p, p, [], [], [], [], [], [],
      by rw [tellM_ok_iff]; exact ⟨rfl, rfl, rfl, rfl, rfl⟩, ?_, rfl, rfl, rfl⟩
    rw [bind_ok_iff]
    refine ⟨[], p, [], [], [], [], [], [], ?_, ?_, rfl, rfl, rfl⟩
    · unfold flsListLoop
      rw [if_pos rfl]
      rfl
    · rw [bind_ok_iff]
      refine ⟨(), p, [], [], [], [], [], [],
        by rw [seek_ok_iff]; exact ⟨rfl, rfl, rfl, rfl⟩, ?_, rfl, rfl, rfl⟩
      rw [pure_ok_iff]
      exact ⟨rfl, rfl, rfl, rfl, rfl⟩

/-- C9: a chain that reaches the 0 sentinel after finitely many records
makes the chain loop terminate - any fuel of at least the chain length
yields a non-diverging outcome - for the material loop and the facelist
loop alike; the loops impose no other bound, and a cyclic chain makes the
loop non-terminating: a material record whose trailing next offset points
back at its own offset exhausts every fuel. -/
theorem chain_loop_termination :
    (∀ (d : List Nat) (off : Nat) (ms : List NxfMaterial), MatChain d off ms →
      ∀ fuel, ms.length ≤ fuel → ∀ p,
        matListLoop fuel off d p ≠ Out.diverge) ∧
    (∀ (d : List Nat) (off : Nat) (fls : List NxfFacelist), FlChain d off fls →
      ∀ fuel, fls.length ≤ fuel → ∀ p,
        flListLoop fuel off d p ≠ Out.diverge) ∧
    (∀ (d : List Nat) (off : Nat), off ≠ 0 →
      (∃ mat q1 r1 m1 s1, NxfMaterial.from_read d off = Out.ok mat q1 r1 m1 s1) →
      get32 d (off + 40) = off → off + 44 ≤ d.length →
      ∀ fuel p, matListLoop fuel off d p = Out.diverge) := by
  refine ⟨?_, ?_, ?_⟩
  · intro d off ms hc fuel hf p
    obtain ⟨q, R, M, S, h⟩ := matListLoop_of_chain hc fuel hf p
    rw [h]
    simp
  · intro d off fls hc fuel hf p
    obtain ⟨q, R, M, S, h⟩ := flListLoop_of_chain hc fuel hf p
    rw [h]
    simp
  · intro d off hoff hok hcyc hlen fuel
    obtain ⟨mat, q1, r1, m1, s1, hmat⟩ := hok
    have hq1 : q1 = off + 40 := (material_from_read_inv hmat).2.1
    subst hq1
    have hnxt : readU32 d (off + 40) =
        Out.ok off (off + 44) [off + 40, off + 41, off + 42, off + 43] [] [] := by
      rw [readU32_ok_iff]
      exact ⟨hlen, hcyc.symm, rfl, rfl, rfl, rfl⟩
    induction fuel with
    | zero =>
      intro p
      unfold matListLoop
      rw [if_neg hoff]
      rfl
    | succ f ih =>
      intro p
      unfold matListLoop
      rw [if_neg hoff]
      refine bind_ok_diverge
        (show seek off d p = Out.ok () off [] [] [] by
          rw [seek_ok_iff]; exact ⟨rfl, rfl, rfl, rfl⟩) ?_
      refine bind_ok_diverge hmat ?_
      refine bind_ok_diverge hnxt ?_
      exact bind_diverge_left (ih (off + 44))

theorem readBufferIf_inv {α : Type} {off cnt : Nat} {one : NxfM α}
    {d : List Nat} {pos : Nat} {xs : List α} {q : Nat} {r m s : List Nat}
    (h : readBufferIf off cnt one d pos = Out.ok xs q r m s) :
    q = pos ∧ xs.length = (if off = 0 then 0 else cnt) ∧ (off = 0 → xs = []) := by
  unfold readBufferIf at h
  by_cases hz : off = 0
  · rw [if_neg (by simp [hz])] at h
    rw [pure_ok_iff] at h
    obtain ⟨rfl, rfl, _⟩ := h
    simp [hz]
  · rw [if_pos hz] at h
    rw [read_at_offset_ok_iff] at h
    obtain ⟨qq, hrn, rfl⟩ := h
    have hl := readN_ok_length hrn
    simp [hz, hl]

set_option maxRecDepth 20000 in
/-- Inversion of a successful NxfArray::from_read: each of the four buffers
has length equal to its declared count when the corresponding buffer offset
is nonzero, and length 0 when the offset is 0 (the declared count is then
ignored); the declared capacities are carried into the structure unchecked
- the decoder performs no count-versus-capacity validation. -/
theorem array_from_read_inv {d : List Nat} {p : Nat} {arr : NxfArray}
    {p1 : Nat} {r m s : List Nat}
    (h : NxfArray.from_read d p = Out.ok arr p1 r m s) :
    arr.verts.length = (if get32 d (p + 72) = 0 then 0 else get32 d (p + 48)) ∧
    arr.normals.length = (if get32 d (p + 76) = 0 then 0 else get32 d (p + 28)) ∧
    arr.colors.length = (if get32 d (p + 80) = 0 then 0 else get32 d (p + 52)) ∧
    arr.uvs.length = (if get32 d (p + 84) = 0 then 0 else get32 d (p + 12)) ∧
    (get32 d (p + 72) = 0 → arr.verts = []) ∧
    (get32 d (p + 76) = 0 → arr.normals = []) ∧
    (get32 d (p + 80) = 0 → arr.colors = []) ∧
    (get32 d (p + 84) = 0 → arr.uvs = []) ∧
    arr.max_verts = get32 d (p + 56) ∧
    arr.max_normals = get32 d (p + 60) ∧
    arr.max_cols = get32 d (p + 64) ∧
    arr.max_uvs = get32 d (p + 68) := by
  unfold NxfArray.from_read at h
  rw [bind_ok_iff] at h
  obtain ⟨v1, q1, r1, mm1, ss1, ra1, ma1, sa1, h1, h,
    rfl, rfl, rfl⟩ := h
  rw [readF32_ok_iff] at h1
  obtain ⟨hb1, rfl, rfl, rfl, rfl, rfl⟩ := h1
  try simp only [] at h
  rw [bind_ok_iff] at h
  obtain ⟨v2, q2, r2, mm2, ss2, ra2, ma2, sa2, h2, h,
    rfl, rfl, rfl⟩ := h
  rw [readF32_ok_iff] at h2
  obtain ⟨hb2, rfl, rfl, rfl, rfl, rfl⟩ := h2
  try simp only [] at h
  rw [bind_ok_iff] at h
  obtain ⟨v3, q3, r3, mm3, ss3, ra3, ma3, sa3, h3, h,
    rfl, rfl, rfl⟩ := h
  rw [readF32_ok_iff] at h3
  obtain ⟨hb3, rfl, rfl, rfl, rfl, rfl⟩ := h3
  try simp only [] at h
  rw [bind_ok_iff] at h
  obtain ⟨v4, q4, r4, mm4, ss4, ra4, ma4, sa4, h4, h,
    rfl, rfl, rfl⟩ := h
  rw [readU32_ok_iff] at h4
  obtain ⟨hb4, rfl, rfl, rfl, rfl, rfl⟩ := h4
  try simp only [] at h
  rw [bind_ok_iff] at h
  obtain ⟨v5, q5, r5, mm5, ss5, ra5, ma5, sa5, h5, h,
    rfl, rfl, rfl⟩ := h
  rw [readF32_ok_iff] at h5
  obtain ⟨hb5, rfl, rfl, rfl, rfl, rfl⟩ := h5
  try simp only [] at h
  rw [bind_ok_iff] at h
  obtain ⟨v6, q6, r6, mm6, ss6, ra6, ma6, sa6, h6, h,
    rfl, rfl, rfl⟩ := h
  rw [readF32_ok_iff] at h6
  obtain ⟨hb6, rfl, rfl, rfl, rfl, rfl⟩ := h6
  try simp only [] at h
  rw [bind_ok_iff] at h
  obtain ⟨v7, q7, r7, mm7, ss7, ra7, ma7, sa7, h7, h,
    rfl, rfl, rfl⟩ := h
  rw [readF32_ok_iff] at h7
  obtain ⟨hb7, rfl, rfl, rfl, rfl, rfl⟩ := h7
  try simp only [] at h
  rw [bind_ok_iff] at h
  obtain ⟨v8, q8, r8, mm8, ss8, ra8, ma8, sa8, h8, h,
    rfl, rfl, rfl⟩ := h
  rw [readU32_ok_iff] at h8
  obtain ⟨hb8, rfl, rfl, rfl, rfl, rfl⟩ := h8
  try simp only [] at h
  rw [bind_ok_iff] at h
  obtain ⟨v9, q9, r9, mm9, ss9, ra9, ma9, sa9, h9, h,
    rfl, rfl, rfl⟩ := h
  rw [readF32_ok_iff] at h9
  obtain ⟨hb9, rfl, rfl, rfl, rfl, rfl⟩ := h9
  try simp only [] at h
  rw [bind_ok_iff] at h
  obtain ⟨v10, q10, r10, mm10, ss10, ra10, ma10, sa10, h10, h,
    rfl, rfl, rfl⟩ := h
  rw [readF32_ok_iff] at h10
  obtain ⟨hb10, rfl, rfl, rfl, rfl, rfl⟩ := h10
  try simp only [] at h
  rw [bind_ok_iff] at h
  obtain ⟨v11, q11, r11, mm11, ss11, ra11, ma11, sa11, h11, h,
    rfl, rfl, rfl⟩ := h
  rw [readF32_ok_iff] at h11
  obtain ⟨hb11, rfl, rfl, rfl, rfl, rfl⟩ := h11
  try simp only [] at h
  rw [bind_ok_iff] at h
  obtain ⟨v12, q12, r12, mm12, ss12, ra12, ma12, sa12, h12, h,
    rfl, rfl, rfl⟩ := h
  rw [readF32_ok_iff] at h12
  obtain ⟨hb12, rfl, rfl, rfl, rfl, rfl⟩ := h12
  try simp only [] at h
  rw [bind_ok_iff] at h
  obtain ⟨v13, q13, r13, mm13, ss13, ra13, ma13, sa13, h13, h,
    rfl, rfl, rfl⟩ := h
  rw [readU32_ok_iff] at h13
  obtain ⟨hb13, rfl, rfl, rfl, rfl, rfl⟩ := h13
  try simp only [] at h
  rw [bind_ok_iff] at h
  obtain ⟨v14, q14, r14, mm14, ss14, ra14, ma14, sa14, h14, h,
    rfl, rfl, rfl⟩ := h
  rw [readU32_ok_iff] at h14
  obtain ⟨hb14, rfl, rfl, rfl, rfl, rfl⟩ := h14
  try simp only [] at h
  rw [bind_ok_iff] at h
  obtain ⟨v15, q15, r15, mm15, ss15, ra15, ma15, sa15, h15, h,
    rfl, rfl, rfl⟩ := h
  rw [readU32_ok_iff] at h15
  obtain ⟨hb15, rfl, rfl, rfl, rfl, rfl⟩ := h15
  try simp only [] at h
  rw [bind_ok_iff] at h
  obtain ⟨v16, q16, r16, mm16, ss16, ra16, ma16, sa16, h16, h,
    rfl, rfl, rfl⟩ := h
  rw [readU32_ok_iff] at h16
  obtain ⟨hb16, rfl, rfl, rfl, rfl, rfl⟩ := h16
  try simp only [] at h
  rw [bind_ok_iff] at h
  obtain ⟨v17, q17, r17, mm17, ss17, ra17, ma17, sa17, h17, h,
    rfl, rfl, rfl⟩ := h
  rw [readU32_ok_iff] at h17
  obtain ⟨hb17, rfl, rfl, rfl, rfl, rfl⟩ := h17
  try simp only [] at h
  rw [bind_ok_iff] at h
  obtain ⟨v18, q18, r18, mm18, ss18, ra18, ma18, sa18, h18, h,
    rfl, rfl, rfl⟩ := h
  rw [readU32_ok_iff] at h18
  obtain ⟨hb18, rfl, rfl, rfl, rfl, rfl⟩ := h18
  try simp only [] at h
  rw [bind_ok_iff] at h
  obtain ⟨v19, q19, r19, mm19, ss19, ra19, ma19, sa19, h19, h,
    rfl, rfl, rfl⟩ := h
  rw [readU32_ok_iff] at h19
  obtain ⟨hb19, rfl, rfl, rfl, rfl, rfl⟩ := h19
  try simp only [] at h
  rw [bind_ok_iff] at h
  obtain ⟨xs20, q20, r20, mm20, ss20, ra20, ma20, sa20, hbuf20, h,
    rfl, rfl, rfl⟩ := h
  try simp only [] at h
  rw [bind_ok_iff] at h
  obtain ⟨v21, q21, r21, mm21, ss21, ra21, ma21, sa21, h21, h,
    rfl, rfl, rfl⟩ := h
  rw [readU32_ok_iff] at h21
  obtain ⟨hb21, rfl, rfl, rfl, rfl, rfl⟩ := h21
  try simp only [] at h
  rw [bind_ok_iff] at h
  obtain ⟨xs22, q22, r22, mm22, ss22, ra22, ma22, sa22, hbuf22, h,
    rfl, rfl, rfl⟩ := h
  try simp only [] at h
  rw [bind_ok_iff] at h
  obtain ⟨v23, q23, r23, mm23, ss23, ra23, ma23, sa23, h23, h,
    rfl, rfl, rfl⟩ := h
  rw [readU32_ok_iff] at h23
  obtain ⟨hb23, rfl, rfl, rfl, rfl, rfl⟩ := h23
  try simp only [] at h
  rw [bind_ok_iff] at h
  obtain ⟨xs24, q24, r24, mm24, ss24, ra24, ma24, sa24, hbuf24, h,
    rfl, rfl, rfl⟩ := h
  try simp only [] at h
  rw [bind_ok_iff] at h
  obtain ⟨v25, q25, r25, mm25, ss25, ra25, ma25, sa25, h25, h,
    rfl, rfl, rfl⟩ := h
  rw [readU32_ok_iff] at h25
  obtain ⟨hb25, rfl, rfl, rfl, rfl, rfl⟩ := h25
  try simp only [] at h
  rw [bind_ok_iff] at h
  obtain ⟨xs26, q26, r26, mm26, ss26, ra26, ma26, sa26, hbuf26, h,
    rfl, rfl, rfl⟩ := h
  try simp only [] at h
  rw [bind_ok_iff] at h
  obtain ⟨v27, q27, r27, mm27, ss27, ra27, ma27, sa27, h27, h,
    rfl, rfl, rfl⟩ := h
  rw [readU32_ok_iff] at h27
  obtain ⟨hb27, rfl, rfl, rfl, rfl, rfl⟩ := h27
  try simp only [] at h
  rw [bind_ok_iff] at h
  obtain ⟨v28, q28, r28, mm28, ss28, ra28, ma28, sa28, h28, h,
    rfl, rfl, rfl⟩ := h
  rw [readU32_ok_iff] at h28
  obtain ⟨hb28, rfl, rfl, rfl, rfl, rfl⟩ := h28
  try simp only [] at h
  rw [bind_ok_iff] at h
  obtain ⟨v29, q29, r29, mm29, ss29, ra29, ma29, sa29, h29, h,
    rfl, rfl, rfl⟩ := h
  rw [readU32_ok_iff] at h29
  obtain ⟨hb29, rfl, rfl, rfl, rfl, rfl⟩ := h29
  try simp only [] at h
  rw [pure_ok_iff] at h
  obtain ⟨harr, rfl, rfl, rfl, rfl⟩ := h
  subst harr
  obtain ⟨rfl, hl1, he1⟩ := readBufferIf_inv hbuf20
  obtain ⟨rfl, hl2, he2⟩ := readBufferIf_inv hbuf22
  obtain ⟨rfl, hl3, he3⟩ := readBufferIf_inv hbuf24
  obtain ⟨rfl, hl4, he4⟩ := readBufferIf_inv hbuf26
  exact ⟨hl1, hl2, hl3, hl4, he1, he2, he3, he4, by norm_num, by norm_num,
    by norm_num, by norm_num⟩

/-- C7 (amended): for every successful decode of the vertex-array block,
each buffer's length equals its declared count when the corresponding
buffer offset is nonzero, and is 0 when the offset is 0 regardless of the
declared count; the four declared capacities are stored into the structure
unchecked - the decoder performs no count-versus-capacity validation, so a
file whose declared count exceeds its declared capacity still decodes. -/
theorem array_buffer_lengths_and_capacities (d : List Nat) (p : Nat)
    (arr : NxfArray) (p1 : Nat) (r m s : List Nat)
    (h : NxfArray.from_read d p = Out.ok arr p1 r m s) :
    arr.verts.length = (if get32 d (p + 72) = 0 then 0 else get32 d (p + 48)) ∧
    arr.normals.length = (if get32 d (p + 76) = 0 then 0 else get32 d (p + 28)) ∧
    arr.colors.length = (if get32 d (p + 80) = 0 then 0 else get32 d (p + 52)) ∧
    arr.uvs.length = (if get32 d (p + 84) = 0 then 0 else get32 d (p + 12)) ∧
    arr.max_verts = get32 d (p + 56) ∧ arr.max_normals = get32 d (p + 60) ∧
    arr.max_cols = get32 d (p + 64) ∧ arr.max_uvs = get32 d (p + 68) := by
  obtain ⟨h1, h2, h3, h4, _, _, _, _, h9, h10, h11, h12⟩ :=
    array_from_read_inv h
  exact ⟨h1, h2, h3, h4, h9, h10, h11, h12⟩

/-- C3 (amended): a zero offset decodes to an empty collection exactly
where the code tests for it: the four buffer offsets of the vertex-array
block, and a zero chain-start offset, which yields the empty chain without
reading anything.  But the material's texture-name offset and the
facelist's material offset (likewise its faces offset and the string-slot
offsets) are dereferenced unconditionally: a material whose texture-name
offset is 0 reads its name from the bytes at position 0, and a facelist
whose material offset is 0 decodes a material at position 0. -/
theorem zero_offset_dereference_behavior :
    (∀ (d : List Nat) (p : Nat) (arr : NxfArray) (p1 : Nat) (r m s : List Nat),
      NxfArray.from_read d p = Out.ok arr p1 r m s →
        (get32 d (p + 72) = 0 → arr.verts = []) ∧
        (get32 d (p + 76) = 0 → arr.normals = []) ∧
        (get32 d (p + 80) = 0 → arr.colors = []) ∧
        (get32 d (p + 84) = 0 → arr.uvs = [])) ∧
    (∀ (fuel : Nat) (d : List Nat) (p : Nat),
      NxfFacelist.list_from_read fuel 0 d p = Out.ok [] p [] [] []) ∧
    (∀ (d : List Nat) (p : Nat) (mat : NxfMaterial) (p1 : Nat)
        (r m s : List Nat),
      NxfMaterial.from_read d p = Out.ok mat p1 r m s →
        mat.tex_name = strBytes d (get32 d (p + 8)) ∧ s = [get32 d (p + 8)]) ∧
    (∀ (d : List Nat) (p : Nat) (fl : NxfFacelist) (p1 : Nat)
        (r m s : List Nat),
      NxfFacelist.from_read d p = Out.ok fl p1 r m s →
        m = [get32 d (p + 8)] ∧ matAt d (get32 d (p + 8)) = some fl.material) := by
  refine ⟨?_, ?_, ?_, ?_⟩
  · intro d p arr p1 r m s h
    obtain ⟨_, _, _, _, h5, h6, h7, h8, _⟩ := array_from_read_inv h
    exact ⟨h5, h6, h7, h8⟩
  · intro fuel d p
    unfold NxfFacelist.list_from_read
    rw [bind_ok_iff]
    refine ⟨p, p, [], [], [], [], [], [],
      by rw [tellM_ok_iff]; exact ⟨rfl, rfl, rfl, rfl, rfl⟩, ?_, rfl, rfl, rfl⟩
    rw [bind_ok_iff]
    refine ⟨[], p, [], [], [], [], [], [], ?_, ?_, rfl, rfl, rfl⟩
    · unfold flListLoop
      rw [if_pos rfl]
      rfl
    · rw [bind_ok_iff]
      refine ⟨(), p, [], [], [], [], [], [],
        by rw [seek_ok_iff]; exact ⟨rfl, rfl, rfl, rfl⟩, ?_, rfl, rfl, rfl⟩
      rw [pure_ok_iff]
      exact ⟨rfl, rfl, rfl, rfl, rfl⟩
  · intro d p mat p1 r m s h
    obtain ⟨_, _, h3, h4, _⟩ := material_from_read_inv h
    exact ⟨h3, h4⟩
  · intro d p fl p1 r m s h
    obtain ⟨h1, h2, _⟩ := facelist_from_read_inv h
    exact ⟨h1, h2⟩

/- Concrete byte sources used by witnesses and counterexamples. -/

/-- A 120-byte file: a 40-byte material record at offset 4 (its texture-name
offset is 0; byte 0 is a null terminator), a 12-byte tag-11 face block at
offset 44 (whose leading 4 bytes double as the material chain's 0
terminator), and two 32-byte facelists at offsets 56 and 88, both storing
material offset 4 and faces offset 44; the first's next offset is 88, the
second's is 0. -/
def fileC1 : List Nat :=
  ((((((((List.replicate 120 0).set 58 11).set 67 4).set 71 1).set 75
    44).set 79 88).set 90 11).set 99 4).set 103 1 |>.set 107 44

/-- A 44-byte file: the bytes 65, 66, 0 at positions 0..2, then a 40-byte
material record at offset 4 whose texture-name offset field (positions
12..15) is 0. -/
def fileC3 : List Nat := [65, 66, 0] ++ List.replicate 41 0

/-- A 100-byte vertex-array block at offset 0: declared vertex count 5
(positions 48..51), declared vertex capacity 0 (positions 56..59), and all
four buffer offsets 0. -/
def fileC7 : List Nat := (List.replicate 100 0).set 51 5

/-- A 76-byte file: a 40-byte material record at offset 32 whose trailing
next offset (positions 72..75) points back at offset 32 - a one-record
cycle. -/
def fileC9 : List Nat := (List.replicate 76 0).set 75 32

/-- A 116-byte file: a material at offset 4 (chain terminator 0 at 44..47), a
12-byte tag-11 face block at 48, one facelist at 60 (material offset 4,
1 face at 48, next 0), and one facelist-set at 92 (first facelist 60) whose
chain's bare next offset (112..115) is 0. -/
def fileC4 : List Nat :=
  (((((List.replicate 116 0).set 62 11).set 71 4).set 75 1).set 79
    48).set 107 60

/-- A 10-byte file: a two-slot string table at offset 0 whose slots both
store offset 8, where the bytes 65, 0 spell the string A. -/
def fileStr : List Nat := [0, 0, 0, 8, 0, 0, 0, 8, 65, 0]

/-- The all-zero material record (empty texture name). -/
def matZero : NxfMaterial := ⟨0, 0, [], 0, 0, 0, 0, 0, 0, 0, 0⟩

/-- The material decoded from fileC3 at offset 4: its texture name holds
the bytes 65, 66 read from position 0. -/
def matC3 : NxfMaterial := ⟨0, 0, [65, 66], 0, 0, 0, 0, 0, 0, 0, 0⟩

/-- The all-zero color-unlit triangle. -/
def faceZero : NxfColUnlitTri := ⟨0, 0, 0, 0, 0, 0⟩

/-- First facelist of fileC1 (next offset 88). -/
def flA : NxfFacelist :=
  ⟨0, 0, matZero, NxfFaces.ColUnlitTri [faceZero], 88, 0, 0⟩

/-- Second facelist of fileC1, also the sole facelist of fileC4 (next
offset 0). -/
def flB : NxfFacelist :=
  ⟨0, 0, matZero, NxfFaces.ColUnlitTri [faceZero], 0, 0, 0⟩

/-- The sole facelist-set of fileC4. -/
def stC4 : NxfFacelistSet := ⟨0, [flB], none⟩

/-- The vertex-array block decoded from fileC7: every scalar 0, every
buffer empty. -/
def arrC7 : NxfArray :=
  ⟨0, 0, 0, 0, 0, 0, 0, 0, 0, 0, 0, 0, 0, 0, [], [], [], [], 0⟩

/-- C1 counterexample to the claim as stated: in fileC1 both facelists of
the chain starting at offset 56 store material offset 4; decoding the
chain succeeds, and the material-decode log records offset 4 twice - the
shared material record is decoded once per referencing facelist, not at
most once per offset. -/
theorem material_decoded_twice_counterexample :
    mlogOf (NxfFacelist.list_from_read 2 56 fileC1 0) = [4, 4] ∧
      isOkB (NxfFacelist.list_from_read 2 56 fileC1 0) = true ∧
      ¬ (mlogOf (NxfFacelist.list_from_read 2 56 fileC1 0)).Nodup := by
  exact ⟨by decide, by decide, by decide⟩

/-- Witness for no_memoization_one_decode_per_reference: the two-slot
string table of fileStr, both slots storing offset 8, decodes each slot
separately (two logged string decodes at offset 8) to equal strings. -/
theorem no_memoization_witness :
    ([8, 8] : List Nat).length = ([[65], [65]] : List (List Nat)).length ∧
      (∀ pr ∈ ([8, 8] : List Nat).zip [[65], [65]],
        strAt fileStr pr.1 = some pr.2) ∧
      (∀ pr qr, pr ∈ ([8, 8] : List Nat).zip [[65], [65]] →
        qr ∈ ([8, 8] : List Nat).zip [[65], [65]] → pr.1 = qr.1 →
          pr.2 = qr.2) :=
  no_memoization_one_decode_per_reference.2 2 fileStr 0 [[65], [65]] 8
    [0, 1, 2, 3, 8, 9, 4, 5, 6, 7, 8, 9] [] [8, 8] rfl

/-- C3 counterexample to the claim as stated: the material at offset 4 of
fileC3 stores texture-name offset 0, yet the decode succeeds, the texture
name is the bytes 65, 66 sitting at position 0 (not an absent or empty
reference), position 0 is among the byte positions read, and a string
decode is logged at offset 0. -/
theorem zero_offset_dereferenced_counterexample :
    get32 fileC3 (4 + 8) = 0 ∧
      (valOf (NxfMaterial.from_read fileC3 4)).map NxfMaterial.tex_name =
        some [65, 66] ∧
      some [65, 66] ≠ some ([] : List Nat) ∧
      0 ∈ rlogOf (NxfMaterial.from_read fileC3 4) ∧
      slogOf (NxfMaterial.from_read fileC3 4) = [0] := by
  exact ⟨by decide, by decide, by decide, by decide, by decide⟩

/-- Witness for zero_offset_dereference_behavior, combining all four
conjuncts at concrete inputs: fileC7's vertex buffer (offset 0) is empty,
the zero-start facelist chain is empty, fileC3's material reads its name
at offset 0, and fileC1's facelist at 56 decodes its material at the
stored offset 4. -/
theorem zero_offset_dereference_behavior_witness :
    arrC7.verts = [] ∧
      NxfFacelist.list_from_read 3 0 [] 9 = Out.ok [] 9 [] [] [] ∧
      matC3.tex_name = strBytes fileC3 (get32 fileC3 (4 + 8)) ∧
      ([0] : List Nat) = [get32 fileC3 (4 + 8)] ∧
      ([4] : List Nat) = [get32 fileC1 (56 + 8)] ∧
      matAt fileC1 (get32 fileC1 (56 + 8)) = some flA.material := by
  refine ⟨?_, ?_, ?_, ?_, ?_, ?_⟩
  · exact (zero_offset_dereference_behavior.1 fileC7 0 arrC7 100
      (List.range' 0 100) [] [] rfl).1 (by decide)
  · exact zero_offset_dereference_behavior.2.1 3 [] 9
  · exact (zero_offset_dereference_behavior.2.2.1 fileC3 4 matC3 44 _
      [4] [0] rfl).1
  · exact (zero_offset_dereference_behavior.2.2.1 fileC3 4 matC3 44 _
      [4] [0] rfl).2
  · exact (zero_offset_dereference_behavior.2.2.2 fileC1 56 flA 88 _
      [4] [0] rfl).1
  · exact (zero_offset_dereference_behavior.2.2.2 fileC1 56 flA 88 _
      [4] [0] rfl).2

/-- C7 counterexample to the claim as stated: fileC7 declares vertex count
5 (positions 48..51) with vertex capacity 0 (positions 56..59) and vertex
buffer offset 0; the decode succeeds anyway, the buffer length is 0 - not
the declared count 5 - and the count exceeding the capacity is not
rejected. -/
theorem array_count_capacity_counterexample :
    get32 fileC7 48 = 5 ∧ get32 fileC7 56 = 0 ∧ get32 fileC7 72 = 0 ∧
      NxfArray.from_read fileC7 0 =
        Out.ok arrC7 100 (List.range' 0 100) [] [] ∧
      arrC7.verts.length = 0 ∧ arrC7.max_verts = 0 := by
  exact ⟨by decide, by decide, by decide, by decide, by decide, by decide⟩

/-- Witness for array_buffer_lengths_and_capacities at fileC7. -/
theorem array_buffer_lengths_and_capacities_witness :
    arrC7.verts.length =
      (if get32 fileC7 (0 + 72) = 0 then 0 else get32 fileC7 (0 + 48)) ∧
    arrC7.normals.length =
      (if get32 fileC7 (0 + 76) = 0 then 0 else get32 fileC7 (0 + 28)) ∧
    arrC7.colors.length =
      (if get32 fileC7 (0 + 80) = 0 then 0 else get32 fileC7 (0 + 52)) ∧
    arrC7.uvs.length =
      (if get32 fileC7 (0 + 84) = 0 then 0 else get32 fileC7 (0 + 12)) ∧
    arrC7.max_verts = get32 fileC7 (0 + 56) ∧
    arrC7.max_normals = get32 fileC7 (0 + 60) ∧
    arrC7.max_cols = get32 fileC7 (0 + 64) ∧
    arrC7.max_uvs = get32 fileC7 (0 + 68) :=
  array_buffer_lengths_and_capacities fileC7 0 arrC7 100 (List.range' 0 100)
    [] [] rfl

/-- Witness for chain_decode_exact_length: a one-material chain at offset 4
of fileC1, the two-facelist chain at offset 56 of fileC1, the one-set
chain at offset 92 of fileC4, and the three zero-start chains. -/
theorem chain_decode_exact_length_witness :
    (∃ R M S, NxfMaterial.list_from_read 1 4 fileC1 7 =
      Out.ok [matZero] 7 R M S) ∧
    (∃ R M S, NxfFacelist.list_from_read 2 56 fileC1 7 =
      Out.ok [flA, flB] 7 R M S) ∧
    (∃ R M S, NxfFacelistSet.list_from_read 1 1 92 fileC4 7 =
      Out.ok [stC4] 7 R M S) ∧
    NxfMaterial.list_from_read 3 0 [] 5 = Out.ok [] 5 [] [] [] ∧
    NxfFacelist.list_from_read 3 0 [] 5 = Out.ok [] 5 [] [] [] ∧
    NxfFacelistSet.list_from_read 1 3 0 [] 5 = Out.ok [] 5 [] [] [] := by
  refine ⟨?_, ?_, ?_, ?_, ?_, ?_⟩
  · exact chain_decode_exact_length.1 fileC1 4 [matZero]
      (MatChain.cons (by decide) rfl rfl MatChain.nil) 1 (by decide) 7
  · exact chain_decode_exact_length.2.1 fileC1 56 [flA, flB]
      (FlChain.cons (by decide) rfl
        (FlChain.cons (by decide) rfl FlChain.nil)) 2 (by decide) 7
  · exact chain_decode_exact_length.2.2.1 fileC4 1 92 [stC4]
      (FlsChain.cons (by decide) rfl rfl FlsChain.nil) 1 (by decide) 7
  · exact chain_decode_exact_length.2.2.2.1 3 [] 5
  · exact chain_decode_exact_length.2.2.2.2.1 3 [] 5
  · exact chain_decode_exact_length.2.2.2.2.2 1 3 [] 5

/-- Witness for chain_loop_termination: the finite chains of fileC1
terminate; the self-pointing material record at offset 32 of fileC9
exhausts a concrete fuel of 5. -/
theorem chain_loop_termination_witness :
    matListLoop 1 4 fileC1 7 ≠ Out.diverge ∧
      flListLoop 2 56 fileC1 7 ≠ Out.diverge ∧
      matListLoop 5 32 fileC9 7 = Out.diverge := by
  refine ⟨?_, ?_, ?_⟩
  · exact chain_loop_termination.1 fileC1 4 [matZero]
      (MatChain.cons (by decide) rfl rfl MatChain.nil) 1 (by decide) 7
  · exact chain_loop_termination.2.1 fileC1 56 [flA, flB]
      (FlChain.cons (by decide) rfl
        (FlChain.cons (by decide) rfl FlChain.nil)) 2 (by decide) 7
  · exact chain_loop_termination.2.2 fileC9 32 (by decide)
      ⟨matZero, 72, _, [32], [0], rfl⟩ (by decide) (by decide) 5 7
